import Mathlib

/-!
Verification of the ROM catalog audit engine of Advanced Emulator Launcher.

The definitions below are shallow embeddings, translated line by line from
`resources/rom_audit.py` and `resources/utils.py`.  Python dictionaries are
modelled as association lists in insertion order (keys are unique by
construction, exactly as in the source), Python strings as `List Char` or
`String`, and byte strings as `List Nat` (each element a byte value).
-/

set_option maxRecDepth 100000

namespace AEL

/-! ## ParentCloneResolver: `audit_make_NoIntro_PClone_dic` (rom_audit.py) -/

/-- One record of a loaded No-Intro catalog: the `name` key and the
`cloneof` field (`''` when absent), as produced by `audit_new_rom_logiqx`. -/
structure NointroRom where
  name : String
  cloneof : String
  deriving DecidableEq, Repr

/-- A `{parent : [clone, ...]}` dictionary in insertion order. -/
abbrev PCloneDic := List (String × List String)

/-- `parent_name in main_pclone_dic` -/
def hasKey (dic : PCloneDic) (k : String) : Bool :=
  dic.any (fun e => e.1 == k)

/-- `main_pclone_dic[parent_name].append(machine_name)`: append to the list
stored under key `k` (keys are unique, so only the first hit matters). -/
def appendAtKey (dic : PCloneDic) (k v : String) : PCloneDic :=
  match dic with
  | [] => []
  | e :: rest =>
      if e.1 == k then (e.1, e.2 ++ [v]) :: rest
      else e :: appendAtKey rest k v

/-- The body of the `for machine_name in nointro_dic` loop of
`audit_make_NoIntro_PClone_dic`, one machine at a time. -/
def pcloneStep (dic : PCloneDic) (machine : NointroRom) : PCloneDic :=
  if machine.cloneof ≠ "" then
    -- If parent already in main_pclone_dic then add clone to parent list.
    -- If parent not there, then add parent first and then add clone.
    appendAtKey
      (if hasKey dic machine.cloneof then dic else dic ++ [(machine.cloneof, [])])
      machine.cloneof machine.name
  else
    -- Machine is a parent. Add to main_pclone_dic if not already there.
    if hasKey dic machine.name then dic else dic ++ [(machine.name, [])]

/-- `audit_make_NoIntro_PClone_dic(nointro_dic)`: fold of the loop body over
the catalog in iteration order. -/
def audit_make_NoIntro_PClone_dic (nointro_dic : List NointroRom) : PCloneDic :=
  nointro_dic.foldl pcloneStep []

/-- How many keys of the dictionary equal `n` (0 or 1 since keys are unique). -/
def keyCount (dic : PCloneDic) (n : String) : Nat :=
  dic.countP (fun e => e.1 == n)

/-- Total number of occurrences of `n` across every clone list of the
dictionary: `n` sits "in at most one key's clone set" iff this is ≤ 1. -/
def cloneOcc (dic : PCloneDic) (n : String) : Nat :=
  (dic.map (fun e => e.2.count n)).sum

/-- The property claimed of the graph, at one catalog: every record name of
the catalog appears exactly once as a key, and in at most one clone set. -/
def pcloneClaim (cat : List NointroRom) : Prop :=
  ∀ r ∈ cat,
    keyCount (audit_make_NoIntro_PClone_dic cat) r.name = 1 ∧
    cloneOcc (audit_make_NoIntro_PClone_dic cat) r.name ≤ 1

example :
    audit_make_NoIntro_PClone_dic
      [⟨"b", "a"⟩, ⟨"a", ""⟩] = [("a", ["b"])] := by decide

lemma hasKey_append_self (dic : PCloneDic) (p : String) :
    hasKey (dic ++ [(p, [])]) p = true := by
  simp [hasKey, List.any_append]

lemma hasKey_append_mono (dic : PCloneDic) (e : String × List String) (n : String)
    (h : hasKey dic n = true) : hasKey (dic ++ [e]) n = true := by
  simp [hasKey, List.any_append]
  simp [hasKey] at h
  exact Or.inl h

lemma hasKey_appendAtKey (dic : PCloneDic) (k v n : String) :
    hasKey (appendAtKey dic k v) n = hasKey dic n := by
  induction dic with
  | nil => rfl
  | cons e rest ih =>
      by_cases h : e.1 == k
      · simp [appendAtKey, h, hasKey]
      · simp only [appendAtKey, h, if_neg, Bool.false_eq_true, not_false_eq_true]
        simp [hasKey] at ih ⊢
        rw [ih]

lemma hasKey_pcloneStep_mono (dic : PCloneDic) (m : NointroRom) (n : String)
    (h : hasKey dic n = true) : hasKey (pcloneStep dic m) n = true := by
  unfold pcloneStep
  by_cases hc : m.cloneof ≠ ""
  · rw [if_pos hc, hasKey_appendAtKey]
    by_cases hk : hasKey dic m.cloneof = true
    · rwa [if_pos hk]
    · rw [if_neg hk]
      exact hasKey_append_mono _ _ _ h
  · rw [if_neg hc]
    by_cases hk : hasKey dic m.name = true
    · rwa [if_pos hk]
    · rw [if_neg hk]
      exact hasKey_append_mono _ _ _ h

lemma hasKey_pcloneStep_self (dic : PCloneDic) (m : NointroRom)
    (hc : m.cloneof = "") : hasKey (pcloneStep dic m) m.name = true := by
  unfold pcloneStep
  rw [if_neg (by simp [hc])]
  by_cases hk : hasKey dic m.name = true
  · rwa [if_pos hk]
  · rw [if_neg hk]
    exact hasKey_append_self _ _

lemma hasKey_fold_mono (L : List NointroRom) (acc : PCloneDic) (n : String)
    (h : hasKey acc n = true) : hasKey (L.foldl pcloneStep acc) n = true := by
  induction L generalizing acc with
  | nil => exact h
  | cons a L ih => exact ih _ (hasKey_pcloneStep_mono _ _ _ h)

lemma hasKey_fold_of_mem (L : List NointroRom) (r : NointroRom)
    (hr : r ∈ L) (hc : r.cloneof = "") :
    ∀ acc : PCloneDic, hasKey (L.foldl pcloneStep acc) r.name = true := by
  induction L with
  | nil => cases hr
  | cons a L ih =>
      intro acc
      rw [List.foldl_cons]
      rcases List.mem_cons.mp hr with h | h
      · subst h
        exact hasKey_fold_mono _ _ _ (hasKey_pcloneStep_self _ _ hc)
      · exact ih h _

lemma cloneOcc_append_nil (dic : PCloneDic) (p n : String) :
    cloneOcc (dic ++ [(p, [])]) n = cloneOcc dic n := by
  simp [cloneOcc]

lemma cloneOcc_appendAtKey (dic : PCloneDic) (k v n : String)
    (h : hasKey dic k = true) :
    cloneOcc (appendAtKey dic k v) n =
      cloneOcc dic n + (if v = n then 1 else 0) := by
  induction dic with
  | nil => simp [hasKey] at h
  | cons e rest ih =>
      by_cases he : e.1 == k
      · rw [appendAtKey, if_pos he]
        by_cases hv : v = n
        · simp [cloneOcc, List.count_append, List.count_cons, hv]
          omega
        · simp [cloneOcc, List.count_append, List.count_cons, hv,
            Ne.symm hv]
      · rw [appendAtKey, if_neg he]
        have hrest : hasKey rest k = true := by
          simp [hasKey] at h ⊢
          rcases h with h | h
          · exact absurd h (by simpa using he)
          · exact h
        have := ih hrest
        simp [cloneOcc] at this ⊢
        omega

lemma cloneOcc_pcloneStep (dic : PCloneDic) (m : NointroRom) (n : String) :
    cloneOcc (pcloneStep dic m) n =
      cloneOcc dic n + (if m.cloneof ≠ "" ∧ m.name = n then 1 else 0) := by
  unfold pcloneStep
  by_cases hc : m.cloneof ≠ ""
  · rw [if_pos hc]
    by_cases hk : hasKey dic m.cloneof = true
    · rw [if_pos hk, cloneOcc_appendAtKey _ _ _ _ hk]
      by_cases hv : m.name = n <;> simp [hv, hc]
    · rw [if_neg hk, cloneOcc_appendAtKey _ _ _ _ (hasKey_append_self _ _),
        cloneOcc_append_nil]
      by_cases hv : m.name = n <;> simp [hv, hc]
  · rw [if_neg hc]
    simp only [ne_eq, not_not] at hc
    by_cases hk : hasKey dic m.name = true
    · rw [if_pos hk]
      simp [hc]
    · rw [if_neg hk, cloneOcc_append_nil]
      simp [hc]

lemma cloneOcc_fold (L : List NointroRom) (acc : PCloneDic) (n : String) :
    cloneOcc (L.foldl pcloneStep acc) n =
      cloneOcc acc n + L.countP (fun r => !(r.cloneof == "") && r.name == n) := by
  induction L generalizing acc with
  | nil => simp
  | cons a L ih =>
      simp only [List.foldl_cons, List.countP_cons]
      rw [ih, cloneOcc_pcloneStep]
      by_cases ha : a.cloneof = ""
      · simp [ha]
      · by_cases hn : a.name = n
        · simp [ha, hn]
          omega
        · simp [ha, hn]

lemma countP_name_le_one (L : List NointroRom) (n : String)
    (hnd : (L.map (fun r => r.name)).Nodup) :
    L.countP (fun r => r.name == n) ≤ 1 := by
  induction L with
  | nil => simp
  | cons a L ih =>
      simp only [List.map_cons, List.nodup_cons] at hnd
      rw [List.countP_cons]
      by_cases hn : a.name == n
      · have hzero : L.countP (fun r => r.name == n) = 0 := by
          rw [List.countP_eq_zero]
          intro r hr
          simp at hn
          subst hn
          simp only [beq_iff_eq]
          intro hcon
          exact hnd.1 (hcon ▸ List.mem_map_of_mem (fun r => r.name) hr)
        simp [hn, hzero]
      · simp [hn]
        exact ih hnd.2

/-- **C1.** The claim as stated: in the built parent/clone dictionary, every
record name of the catalog appears exactly once as a key.  False: a record
whose `cloneof` is non-empty is appended to its parent's clone list and is
*not* itself added as a key.  In catalog `{b ↦ cloneof a, a ↦ cloneof ''}`
the resulting graph is `{a : [b]}` and `b` is not a key. -/
theorem pclone_claim_counterexample :
    ¬ pcloneClaim [⟨"b", "a"⟩, ⟨"a", ""⟩] := by
  intro h
  have := (h ⟨"b", "a"⟩ (by decide)).1
  revert this
  decide

/-- **C1** (amended).  In the graph built by `audit_make_NoIntro_PClone_dic`
from a valid catalog (non-empty, pairwise-distinct names), every record name
appears: a record with empty `cloneof` appears as a key, and a record with
non-empty `cloneof` appears exactly once in its parent's clone set; moreover
every record name occurs at most once across all clone sets.  (A clone's
name need not appear as a key.) -/
theorem pclone_graph_names (cat : List NointroRom)
    (hne : ∀ r ∈ cat, r.name ≠ "")
    (hnd : (cat.map (fun r => r.name)).Nodup) :
    ∀ r ∈ cat,
      (r.cloneof = "" →
        hasKey (audit_make_NoIntro_PClone_dic cat) r.name = true) ∧
      (r.cloneof ≠ "" →
        cloneOcc (audit_make_NoIntro_PClone_dic cat) r.name = 1) ∧
      cloneOcc (audit_make_NoIntro_PClone_dic cat) r.name ≤ 1 := by
  intro r hr
  have hocc : cloneOcc (audit_make_NoIntro_PClone_dic cat) r.name =
      cat.countP (fun s => !(s.cloneof == "") && s.name == r.name) := by
    unfold audit_make_NoIntro_PClone_dic
    rw [cloneOcc_fold]
    simp [cloneOcc]
  have hle : cloneOcc (audit_make_NoIntro_PClone_dic cat) r.name ≤ 1 := by
    rw [hocc]
    calc cat.countP (fun s => !(s.cloneof == "") && s.name == r.name)
        ≤ cat.countP (fun s => s.name == r.name) := by
          apply List.countP_mono_left
          intro s _ hs
          simp at hs
          simp [hs.2]
      _ ≤ 1 := countP_name_le_one cat r.name hnd
  refine ⟨fun hc => hasKey_fold_of_mem _ _ hr hc _, fun hc => ?_, hle⟩
  have hpos : 0 < cat.countP (fun s => !(s.cloneof == "") && s.name == r.name) := by
    rw [List.countP_pos_iff]
    exact ⟨r, hr, by simp [hc]⟩
  omega

/-- Witness for `pclone_graph_names` at the concrete catalog
`{b ↦ cloneof a, a ↦ cloneof ''}`. -/
theorem pclone_graph_names_witness :
    hasKey (audit_make_NoIntro_PClone_dic [⟨"b", "a"⟩, ⟨"a", ""⟩]) "a" = true ∧
    cloneOcc (audit_make_NoIntro_PClone_dic [⟨"b", "a"⟩, ⟨"a", ""⟩]) "b" = 1 :=
  ⟨(pclone_graph_names [⟨"b", "a"⟩, ⟨"a", ""⟩] (by decide) (by decide)
      ⟨"a", ""⟩ (by decide)).1 rfl,
   (pclone_graph_names [⟨"b", "a"⟩, ⟨"a", ""⟩] (by decide) (by decide)
      ⟨"b", "a"⟩ (by decide)).2.1 (by decide)⟩

/-! ## CatalogParser: `audit_load_Tempest_INI` (rom_audit.py)

The Tempest INI loader is a two-state line machine.  Lines of the input
file are modelled as a `List String`; `raise NameError` on an unrecognized
field name is modelled as `Except.error ()` aborting the whole parse. -/

/-- Python `str.strip()` whitespace set (ASCII). -/
def isPySpace (c : Char) : Bool :=
  c == ' ' || c == '\t' || c == '\n' || c == '\r' ||
  c == '\x0b' || c == '\x0c'

/-- Python `str.strip()`. -/
def pyStrip (s : String) : String :=
  ⟨((s.data.dropWhile isPySpace).reverse.dropWhile isPySpace).reverse⟩

/-- `dic[key] = value` on an insertion-ordered dictionary: replace the value
at an existing key, or append a new entry. -/
def setItem {α : Type} (d : List (String × α)) (k : String) (v : α) :
    List (String × α) :=
  match d with
  | [] => [(k, v)]
  | e :: rest => if e.1 == k then (k, v) :: rest else e :: setItem rest k v

/-- `audit_new_rom_GameDB()`: the default-field template, in source order. -/
def audit_new_rom_GameDB : List (String × String) :=
  [("name", ""), ("description", ""), ("year", ""), ("rating", ""),
   ("manufacturer", ""), ("genre", ""), ("player", ""), ("story", "")]

/-- Python `str.split(sep)` for a one-character separator: `''` splits to
`['']`, and every separator occurrence starts a new part. -/
def splitOnChar (sep : Char) : List Char → List (List Char)
  | [] => [[]]
  | c :: t =>
      if c = sep then [] :: splitOnChar sep t
      else
        match splitOnChar sep t with
        | [] => [[c]]
        | p :: ps => (c :: p) :: ps

/-- The regex fragment `[^\]]+` followed by `\]`, tried at one position:
a greedy non-empty run of non-`]` characters that must be closed by `]`. -/
def sectionAt (t : List Char) : Option (List Char) :=
  let inner := t.takeWhile (fun c => c ≠ ']')
  if inner.isEmpty then none
  else if (t.drop inner.length).head? = some ']' then some inner else none

/-- `re.search(r'\[([^\]]+)\]', line)`: scan left to right for the first
position where the bracketed-group pattern matches; return group 1. -/
def findSection : List Char → Option (List Char)
  | [] => none
  | c :: t =>
      if c = '[' then
        match sectionAt t with
        | some g => some g
        | none => findSection t
      else findSection t

/-- The games dictionary built by the Tempest loader. -/
abbrev TGames := List (String × List (String × String))

/-- The two `read_status` FSM values: seeking a `[game_name]` header, or
reading `Field = Value` lines for section `key` with partial record
`game`. -/
inductive TState where
  | seeking : TState
  | reading (key : String) (game : List (String × String)) : TState
  deriving DecidableEq, Repr

/-- `stripped_line.split("=")` of a line, as a list of strings. -/
def tempestParts (file_line : String) : List String :=
  (splitOnChar '=' (pyStrip file_line).data).map (fun l => (⟨l⟩ : String))

/-- One iteration of the `for file_line in f` loop of
`audit_load_Tempest_INI`: strip the line, then dispatch on `read_status`.
An unrecognized field name in state 1 executes `raise NameError`,
modelled by `Except.error ()`. -/
def tempestLine (st : TState) (games : TGames) (file_line : String) :
    Except Unit (TState × TGames) :=
  match st with
  | .seeking =>
      match findSection (pyStrip file_line).data with
      | some g => .ok (.reading ⟨g⟩ (setItem audit_new_rom_GameDB "name" ⟨g⟩), games)
      | none => .ok (.seeking, games)
  | .reading key game =>
      match tempestParts file_line with
      | field_name :: field_value :: _ =>
          if field_name = "Publisher" then
            .ok (.reading key (setItem game "manufacturer" field_value), games)
          else if field_name = "Developer" then
            .ok (.reading key (setItem game "dev" field_value), games)
          else if field_name = "Released" then
            .ok (.reading key (setItem game "year" field_value), games)
          else if field_name = "Systems" then .ok (.reading key game, games)
          else if field_name = "Genre" then
            .ok (.reading key (setItem game "genre" field_value), games)
          else if field_name = "Perspective" then .ok (.reading key game, games)
          else if field_name = "Score" then
            .ok (.reading key (setItem game "score" field_value), games)
          else if field_name = "Controls" then .ok (.reading key game, games)
          else if field_name = "Players" then
            .ok (.reading key (setItem game "player" field_value), games)
          else if field_name = "Esrb" then
            .ok (.reading key (setItem game "rating" field_value), games)
          else if field_name = "Url" then .ok (.reading key game, games)
          else if field_name = "Description" then
            .ok (.reading key (setItem game "story" field_value), games)
          else if field_name = "Goodname" then .ok (.reading key game, games)
          else if field_name = "NoIntro" then .ok (.reading key game, games)
          else if field_name = "Tosec" then .ok (.reading key game, games)
          else .error ()
      | _ =>
          -- a line that does not split into at least two parts closes the
          -- current section: `games[game_key] = game; read_status = 0`
          .ok (.seeking, setItem games key game)

/-- Run the loop over a list of lines from a given machine state. -/
def tempestRun (lines : List String) (st : TState) (games : TGames) :
    Except Unit (TState × TGames) :=
  lines.foldlM (fun p l => tempestLine p.1 p.2 l) (st, games)

/-- `audit_load_Tempest_INI(file)`: process every line starting in state 0
with an empty dictionary and return the dictionary (`raise NameError`
escapes the function, so the whole parse is an `error`). -/
def audit_load_Tempest_INI (lines : List String) : Except Unit TGames :=
  (tempestRun lines .seeking []).map (fun p => p.2)

/-- The fixed allow-list of recognized Tempest field names (including the
intentionally ignored ones). -/
def tempestAllowList : List String :=
  ["Publisher", "Developer", "Released", "Systems", "Genre", "Perspective",
   "Score", "Controls", "Players", "Esrb", "Url", "Description",
   "Goodname", "NoIntro", "Tosec"]

example :
    audit_load_Tempest_INI ["[Sonic]", "Publisher=Sega", ""] =
      .ok [("Sonic",
        [("name", "Sonic"), ("description", ""), ("year", ""), ("rating", ""),
         ("manufacturer", "Sega"), ("genre", ""), ("player", ""), ("story", "")])] := rfl

example : audit_load_Tempest_INI ["[Sonic]", "Bogus=1", ""] = .error () := rfl

lemma tempestRun_append (L1 L2 : List String) (st : TState) (g : TGames) :
    tempestRun (L1 ++ L2) st g =
      (tempestRun L1 st g).bind (fun p => tempestRun L2 p.1 p.2) := by
  unfold tempestRun
  rw [List.foldlM_append]
  cases L1.foldlM (fun p l => tempestLine p.1 p.2 l) (st, g) with
  | error e => rfl
  | ok p => rfl

lemma tempestRun_cons (l : String) (L : List String) (st : TState) (g : TGames) :
    tempestRun (l :: L) st g =
      (tempestLine st g l).bind (fun p => tempestRun L p.1 p.2) := by
  unfold tempestRun
  rw [List.foldlM_cons]
  cases tempestLine st g l with
  | error e => rfl
  | ok p => rfl

/-- In state 1, a line carrying an allow-listed field name keeps the machine
in state 1 for the same section and leaves the games dictionary unchanged. -/
lemma tempestLine_field_ok (key : String) (game : List (String × String))
    (games : TGames) (l f v : String) (t : List String)
    (hsplit : tempestParts l = f :: v :: t)
    (hf : f ∈ tempestAllowList) :
    ∃ game', tempestLine (.reading key game) games l =
      .ok (.reading key game', games) := by
  unfold tempestLine
  rw [hsplit]
  simp only [tempestAllowList, List.mem_cons, List.not_mem_nil, or_false] at hf
  rcases hf with rfl | rfl | rfl | rfl | rfl | rfl | rfl | rfl | rfl | rfl |
    rfl | rfl | rfl | rfl | rfl
  · exact ⟨setItem game "manufacturer" v, by simp⟩
  · exact ⟨setItem game "dev" v, by simp⟩
  · exact ⟨setItem game "year" v, by simp⟩
  · exact ⟨game, by simp⟩
  · exact ⟨setItem game "genre" v, by simp⟩
  · exact ⟨game, by simp⟩
  · exact ⟨setItem game "score" v, by simp⟩
  · exact ⟨game, by simp⟩
  · exact ⟨setItem game "player" v, by simp⟩
  · exact ⟨setItem game "rating" v, by simp⟩
  · exact ⟨game, by simp⟩
  · exact ⟨setItem game "story" v, by simp⟩
  · exact ⟨game, by simp⟩
  · exact ⟨game, by simp⟩
  · exact ⟨game, by simp⟩

/-- In state 1, a line carrying a field name outside the allow-list executes
`raise NameError`. -/
lemma tempestLine_field_error (key : String) (game : List (String × String))
    (games : TGames) (l f v : String) (t : List String)
    (hsplit : tempestParts l = f :: v :: t)
    (hf : f ∉ tempestAllowList) :
    tempestLine (.reading key game) games l = .error () := by
  unfold tempestLine
  rw [hsplit]
  simp only [tempestAllowList, List.mem_cons, List.not_mem_nil, or_false,
    not_or] at hf
  obtain ⟨h1, h2, h3, h4, h5, h6, h7, h8, h9, h10, h11, h12, h13, h14, h15⟩ := hf
  simp [h1, h2, h3, h4, h5, h6, h7, h8, h9, h10, h11, h12, h13, h14, h15]

/-- A run over lines that all split into a `Field = Value` shape with an
allow-listed field name stays in state 1 (same section key) and never
touches the games dictionary. -/
lemma tempestRun_fields (fields : List String) (key : String)
    (game : List (String × String)) (games : TGames)
    (hfields : ∀ l ∈ fields, ∃ f v t,
      tempestParts l = f :: v :: t ∧ f ∈ tempestAllowList) :
    ∃ game', tempestRun fields (.reading key game) games =
      .ok (.reading key game', games) := by
  induction fields generalizing game with
  | nil => exact ⟨game, rfl⟩
  | cons l fields ih =>
      obtain ⟨f, v, t, hsplit, hf⟩ := hfields l (List.mem_cons_self _ _)
      obtain ⟨game', hline⟩ := tempestLine_field_ok key game games l f v t hsplit hf
      obtain ⟨game'', hrest⟩ := ih game'
        (fun l hl => hfields l (List.mem_cons_of_mem _ hl))
      refine ⟨game'', ?_⟩
      rw [tempestRun_cons, hline]
      exact hrest

/-- A run over lines whose every `Field = Value`-shaped line carries an
allow-listed field name never raises. -/
lemma tempestRun_ok (lines : List String) (st : TState) (games : TGames)
    (hlines : ∀ l ∈ lines, ∀ f v t,
      tempestParts l = f :: v :: t → f ∈ tempestAllowList) :
    ∃ r, tempestRun lines st games = .ok r := by
  induction lines generalizing st games with
  | nil => exact ⟨(st, games), rfl⟩
  | cons l lines ih =>
      have htail : ∀ l' ∈ lines, ∀ f v t,
          tempestParts l' = f :: v :: t → f ∈ tempestAllowList :=
        fun l' hl' => hlines l' (List.mem_cons_of_mem _ hl')
      rw [tempestRun_cons]
      match st with
      | .seeking =>
          cases hfs : findSection (pyStrip l).data with
          | some g =>
              obtain ⟨r, hr⟩ := ih (.reading ⟨g⟩
                (setItem audit_new_rom_GameDB "name" ⟨g⟩)) games htail
              refine ⟨r, ?_⟩
              rw [show tempestLine .seeking games l =
                .ok (.reading ⟨g⟩ (setItem audit_new_rom_GameDB "name" ⟨g⟩), games) by
                  unfold tempestLine; rw [hfs]]
              exact hr
          | none =>
              obtain ⟨r, hr⟩ := ih .seeking games htail
              refine ⟨r, ?_⟩
              rw [show tempestLine .seeking games l =
                .ok (.seeking, games) by unfold tempestLine; rw [hfs]]
              exact hr
      | .reading key game =>
          match hsplit : tempestParts l with
          | f :: v :: t =>
              obtain ⟨game', hline⟩ := tempestLine_field_ok key game games l f v t
                hsplit (hlines l (List.mem_cons_self _ _) f v t hsplit)
              obtain ⟨r, hr⟩ := ih (.reading key game') games htail
              refine ⟨r, ?_⟩
              rw [hline]
              exact hr
          | [] =>
              obtain ⟨r, hr⟩ := ih .seeking (setItem games key game) htail
              refine ⟨r, ?_⟩
              rw [show tempestLine (.reading key game) games l =
                .ok (.seeking, setItem games key game) by
                  unfold tempestLine; rw [hsplit]]
              exact hr
          | [x] =>
              obtain ⟨r, hr⟩ := ih .seeking (setItem games key game) htail
              refine ⟨r, ?_⟩
              rw [show tempestLine (.reading key game) games l =
                .ok (.seeking, setItem games key game) by
                  unfold tempestLine; rw [hsplit]]
              exact hr

/-- **C5.**  An unrecognized field name on a `Field = Value` line inside a
section is fatal for the whole parse (`raise NameError`); a parse whose
field lines all carry allow-listed names never signals this error. -/
theorem tempest_unknown_field_fatal :
    (∀ (pre : List String) (key : String) (game : List (String × String))
        (games : TGames) (l f v : String) (t rest : List String),
      tempestRun pre .seeking [] = .ok (.reading key game, games) →
      tempestParts l = f :: v :: t →
      f ∉ tempestAllowList →
      audit_load_Tempest_INI (pre ++ l :: rest) = .error ()) ∧
    (∀ lines : List String,
      (∀ l ∈ lines, ∀ f v t, tempestParts l = f :: v :: t →
        f ∈ tempestAllowList) →
      ∃ g, audit_load_Tempest_INI lines = .ok g) := by
  constructor
  · intro pre key game games l f v t rest hpre hsplit hf
    unfold audit_load_Tempest_INI
    rw [tempestRun_append, hpre]
    show ((tempestRun (l :: rest) (.reading key game) games).map (fun p => p.2)) = _
    rw [tempestRun_cons, tempestLine_field_error key game games l f v t hsplit hf]
    rfl
  · intro lines hlines
    obtain ⟨r, hr⟩ := tempestRun_ok lines .seeking [] hlines
    exact ⟨r.2, by unfold audit_load_Tempest_INI; rw [hr]; rfl⟩

/-- Witness for `tempest_unknown_field_fatal`: the file
`[Game] / Bogus=1` is a fatal parse error, while
`[Game] / Publisher=Sega / (blank)` parses successfully. -/
theorem tempest_unknown_field_fatal_witness :
    audit_load_Tempest_INI ["[Game]", "Bogus=1"] = .error () ∧
    ∃ g, audit_load_Tempest_INI ["[Game]", "Publisher=Sega", ""] = .ok g := by
  constructor
  · exact tempest_unknown_field_fatal.1 ["[Game]"] "Game"
      (setItem audit_new_rom_GameDB "name" "Game") [] "Bogus=1" "Bogus" "1" [] []
      rfl rfl (by decide)
  · apply tempest_unknown_field_fatal.2
    intro l hl f v t h
    simp only [List.mem_cons, List.not_mem_nil, or_false] at hl
    rcases hl with rfl | rfl | rfl
    · rw [show tempestParts "[Game]" = ["[Game]"] from rfl] at h
      simp at h
    · rw [show tempestParts "Publisher=Sega" = ["Publisher", "Sega"] from rfl] at h
      simp at h
      rw [← h.1]
      decide
    · rw [show tempestParts "" = [""] from rfl] at h
      simp at h

/-- **C10.**  A Tempest input that ends while the machine is reading the
field lines of an open section yields exactly the sections closed before
end of input: the trailing open section is never committed. -/
theorem tempest_trailing_section_lost
    (pre : List String) (games : TGames) (hdr : String) (g : List Char)
    (fields : List String)
    (hpre : tempestRun pre .seeking [] = .ok (.seeking, games))
    (hhdr : findSection (pyStrip hdr).data = some g)
    (hfields : ∀ l ∈ fields, ∃ f v t,
      tempestParts l = f :: v :: t ∧ f ∈ tempestAllowList) :
    audit_load_Tempest_INI (pre ++ hdr :: fields) = .ok games ∧
    audit_load_Tempest_INI pre = .ok games := by
  constructor
  · unfold audit_load_Tempest_INI
    rw [tempestRun_append, hpre]
    show ((tempestRun (hdr :: fields) (.seeking) games).map (fun p => p.2)) = _
    rw [tempestRun_cons,
      show tempestLine .seeking games hdr =
        .ok (.reading ⟨g⟩ (setItem audit_new_rom_GameDB "name" ⟨g⟩), games) by
          unfold tempestLine; rw [hhdr]]
    obtain ⟨game', hrest⟩ := tempestRun_fields fields ⟨g⟩
      (setItem audit_new_rom_GameDB "name" ⟨g⟩) games hfields
    show ((tempestRun fields _ games).map (fun p => p.2)) = _
    rw [hrest]
    rfl
  · unfold audit_load_Tempest_INI
    rw [hpre]
    rfl

/-! ## `text_escape_XML` / `text_unescape_XML` (utils.py)

Python `str.replace(needle, repl)` replaces every non-overlapping
occurrence of `needle`, scanning left to right.  The recursion consumes at
least one character per step, so it is implemented with a fuel argument
(initially the string length) to stay structurally recursive and hence
computable by `decide`/`rfl`. -/

/-- If `pat` is a prefix of `s`, return the rest of `s`; else `none`. -/
def stripPrefixQ : List Char → List Char → Option (List Char)
  | [], s => some s
  | _ :: _, [] => none
  | p :: ps, c :: t => if c = p then stripPrefixQ ps t else none

/-- Fueled core of `str.replace` for the non-empty needle `n0 :: ns`. -/
def pyReplaceF (n0 : Char) (ns r : List Char) : Nat → List Char → List Char
  | _, [] => []
  | 0, s => s
  | fuel + 1, c :: t =>
      if c = n0 then
        match stripPrefixQ ns t with
        | some rest => r ++ pyReplaceF n0 ns r fuel rest
        | none => c :: pyReplaceF n0 ns r fuel t
      else c :: pyReplaceF n0 ns r fuel t

/-- `s.replace(n0 :: ns, r)`. -/
def pyReplace (n0 : Char) (ns r s : List Char) : List Char :=
  pyReplaceF n0 ns r s.length s

/-- `text_escape_XML(data_str)`: eight sequential `str.replace` calls,
ampersand first. -/
def text_escape_XML (s : List Char) : List Char :=
  pyReplace '\t' [] "&#9;".data
    (pyReplace '\r' [] "&#13;".data
      (pyReplace '\n' [] "&#10;".data
        (pyReplace '"' [] "&quot;".data
          (pyReplace '\'' [] "&apos;".data
            (pyReplace '<' [] "&lt;".data
              (pyReplace '>' [] "&gt;".data
                (pyReplace '&' [] "&amp;".data s)))))))

/-- `text_unescape_XML(data_str)`: eight sequential `str.replace` calls,
ampersand last among the five entities, control characters after it. -/
def text_unescape_XML (s : List Char) : List Char :=
  pyReplace '&' "#9;".data "\t".data
    (pyReplace '&' "#13;".data "\r".data
      (pyReplace '&' "#10;".data "\n".data
        (pyReplace '&' "amp;".data "&".data
          (pyReplace '&' "gt;".data ">".data
            (pyReplace '&' "lt;".data "<".data
              (pyReplace '&' "apos;".data "'".data
                (pyReplace '&' "quot;".data "\"".data s)))))))

example : text_escape_XML "a<b&c".data = "a&lt;b&amp;c".data := by decide
example : text_unescape_XML "a&lt;b&amp;c".data = "a<b&c".data := by decide
example : text_unescape_XML (text_escape_XML "\"'<>&\n\r\t".data) =
    "\"'<>&\n\r\t".data := by decide
example : text_unescape_XML (text_escape_XML "&#10;".data) = "\n".data := by
  decide

/-! ## CatalogParser: `audit_load_LB_metadata_XML` (rom_audit.py) -/

/-- One child element of a LaunchBox record: its tag and its text
(`None` when the element is empty). -/
structure LBChild where
  tag : String
  text : Option String
  deriving DecidableEq, Repr

/-- One root-level element of a LaunchBox metadata file. -/
structure LBElem where
  tag : String
  children : List LBChild
  deriving DecidableEq, Repr

/-- `audit_new_LB_game()`: fixed field template of a `<Game>`. -/
def audit_new_LB_game : List (String × String) :=
  [("Name", ""), ("ReleaseYear", ""), ("Overview", ""), ("MaxPlayers", ""),
   ("Cooperative", ""), ("VideoURL", ""), ("DatabaseID", ""),
   ("CommunityRating", ""), ("Platform", ""), ("Genres", ""),
   ("Publisher", ""), ("Developer", ""), ("ReleaseDate", ""), ("ESRB", ""),
   ("WikipediaURL", ""), ("DOS", ""), ("StartupFile", ""),
   ("StartupMD5", ""), ("SetupFile", ""), ("SetupMD5", ""),
   ("StartupParameters", "")]

/-- `audit_new_LB_platform()`: fixed field template of a `<Platform>`. -/
def audit_new_LB_platform : List (String × String) :=
  [("Name", ""), ("Emulated", ""), ("ReleaseDate", ""), ("Developer", ""),
   ("Manufacturer", ""), ("Cpu", ""), ("Memory", ""), ("Graphics", ""),
   ("Sound", ""), ("Display", ""), ("Media", ""), ("MaxControllers", ""),
   ("Notes", ""), ("Category", ""), ("UseMameFiles", "")]

/-- `audit_new_LB_gameImage()`: fixed field template of a `<GameImage>`. -/
def audit_new_LB_gameImage : List (String × String) :=
  [("DatabaseID", ""), ("FileName", ""), ("Type", ""), ("CRC32", ""),
   ("Region", "")]

/-- `xml_tag in game` on a record dictionary. -/
def lbHasKey (d : List (String × String)) (k : String) : Bool :=
  d.any (fun e => e.1 == k)

/-- `game[key]` with the template guaranteeing presence. -/
def getValue (d : List (String × String)) (k : String) : String :=
  ((d.find? (fun e => e.1 == k)).map (fun e => e.2)).getD ""

/-- The `for xml_child in xml_element` loop of one LaunchBox record:
an unknown child tag returns `none` (whole-file abort), a known one stores
the unescaped text and continues. -/
def lbFill (rec : List (String × String)) : List LBChild → Option (List (String × String))
  | [] => some rec
  | ch :: rest =>
      if lbHasKey rec ch.tag then
        lbFill (setItem rec ch.tag ⟨text_unescape_XML (ch.text.getD "").data⟩) rest
      else none

/-- The three output dictionaries `games_dic, platforms_dic,
gameimages_dic`. -/
abbrev LBDics :=
  List (String × List (String × String)) ×
  List (String × List (String × String)) ×
  List (String × List (String × String))

/-- The body of the `for xml_element in xml_root` loop: `none` means the
`return` statement aborting the remaining file. -/
def lbStep (d : LBDics) (el : LBElem) : Option LBDics :=
  if el.tag == "Game" then
    (lbFill audit_new_LB_game el.children).map
      (fun game => (setItem d.1 (getValue game "Name") game, d.2.1, d.2.2))
  else if el.tag == "Platform" then
    (lbFill audit_new_LB_platform el.children).map
      (fun platform => (d.1, setItem d.2.1 (getValue platform "Name") platform, d.2.2))
  else if el.tag == "PlatformAlternateName" then some d
  else if el.tag == "Emulator" then some d
  else if el.tag == "EmulatorPlatform" then some d
  else if el.tag == "GameAlternateName" then some d
  else if el.tag == "GameImage" then
    (lbFill audit_new_LB_gameImage el.children).map
      (fun game_image => (d.1, d.2.1, setItem d.2.2 (getValue game_image "FileName") game_image))
  else none

/-- `audit_load_LB_metadata_XML(...)`: process root elements in order; any
`return` keeps the dictionaries filled so far and ignores the rest of the
file. -/
def audit_load_LB_metadata_XML (elems : List LBElem) (d : LBDics) : LBDics :=
  match elems with
  | [] => d
  | el :: rest =>
      match lbStep d el with
      | some d' => audit_load_LB_metadata_XML rest d'
      | none => d

/-- An abort-free run: `some` final dictionaries only when no element
aborted. -/
def lbRun (elems : List LBElem) (d : LBDics) : Option LBDics :=
  match elems with
  | [] => some d
  | el :: rest => (lbStep d el).bind (lbRun rest)

lemma lbRun_complete (pre : List LBElem) (d d' : LBDics)
    (h : lbRun pre d = some d') :
    ∀ rest, audit_load_LB_metadata_XML (pre ++ rest) d =
      audit_load_LB_metadata_XML rest d' := by
  induction pre generalizing d with
  | nil =>
      intro rest
      simp only [lbRun, Option.some.injEq] at h
      rw [h]
      rfl
  | cons el pre ih =>
      intro rest
      simp only [lbRun] at h
      cases hstep : lbStep d el with
      | none => rw [hstep] at h; cases h
      | some d1 =>
          rw [hstep, Option.some_bind] at h
          simpa [audit_load_LB_metadata_XML, hstep] using ih d1 h rest

lemma lbHasKey_setItem (rec : List (String × String)) (k v k' : String)
    (h : lbHasKey rec k = true) :
    lbHasKey (setItem rec k v) k' = lbHasKey rec k' := by
  induction rec with
  | nil => simp [lbHasKey] at h
  | cons e rest ih =>
      by_cases he : e.1 == k
      · rw [setItem, if_pos he]
        simp only [lbHasKey, List.any_cons]
        simp at he
        rw [he]
      · rw [setItem, if_neg he]
        have hrest : lbHasKey rest k = true := by
          simp [lbHasKey] at h ⊢
          rcases h with h | h
          · exact absurd h (by simpa using he)
          · exact h
        simp only [lbHasKey, List.any_cons] at ih ⊢
        rw [ih hrest]

lemma lbFill_none (children : List LBChild) (rec : List (String × String))
    (h : ∃ ch ∈ children, lbHasKey rec ch.tag = false) :
    lbFill rec children = none := by
  induction children generalizing rec with
  | nil => simp at h
  | cons ch rest ih =>
      obtain ⟨ch', hmem, hch'⟩ := h
      by_cases hk : lbHasKey rec ch.tag = true
      · rw [lbFill, if_pos hk]
        apply ih
        rcases List.mem_cons.mp hmem with he | he
        · subst he
          rw [hk] at hch'
          cases hch'
        · exact ⟨ch', he, by rw [lbHasKey_setItem _ _ _ _ hk]; exact hch'⟩
      · rw [lbFill, if_neg hk]

/-- **C4.**  A child tag outside the record's fixed field template inside a
`<Game>`, `<Platform>` or `<GameImage>` element aborts the whole remaining
LaunchBox metadata file: the output dictionaries hold exactly the records
completed before the offending element, and nothing after it is parsed. -/
theorem lb_nested_unknown_tag_aborts (pre post : List LBElem) (bad : LBElem)
    (d d' : LBDics)
    (hpre : lbRun pre d = some d')
    (hbad :
      (bad.tag = "Game" ∧
        ∃ ch ∈ bad.children, lbHasKey audit_new_LB_game ch.tag = false) ∨
      (bad.tag = "Platform" ∧
        ∃ ch ∈ bad.children, lbHasKey audit_new_LB_platform ch.tag = false) ∨
      (bad.tag = "GameImage" ∧
        ∃ ch ∈ bad.children, lbHasKey audit_new_LB_gameImage ch.tag = false)) :
    audit_load_LB_metadata_XML (pre ++ bad :: post) d = d' ∧
    audit_load_LB_metadata_XML pre d = d' := by
  have hstep : lbStep d' bad = none := by
    rcases hbad with ⟨htag, hch⟩ | ⟨htag, hch⟩ | ⟨htag, hch⟩
    · unfold lbStep
      rw [htag]
      simp [lbFill_none _ _ hch]
    · unfold lbStep
      rw [htag]
      simp [lbFill_none _ _ hch]
    · unfold lbStep
      rw [htag]
      simp [lbFill_none _ _ hch]
  constructor
  · rw [lbRun_complete pre d d' hpre (bad :: post)]
    unfold audit_load_LB_metadata_XML
    rw [hstep]
  · have := lbRun_complete pre d d' hpre []
    rw [List.append_nil] at this
    rw [this]
    rfl

/-- Witness for `lb_nested_unknown_tag_aborts`: a file whose second `<Game>`
contains the unknown child `<Foo>` yields only the first game; the third
`<Game>` is never parsed. -/
theorem lb_nested_unknown_tag_aborts_witness :
    audit_load_LB_metadata_XML
      [⟨"Game", [⟨"Name", some "Zelda"⟩]⟩,
       ⟨"Game", [⟨"Foo", some "x"⟩]⟩,
       ⟨"Game", [⟨"Name", some "Mario"⟩]⟩] ([], [], []) =
      ([("Zelda", setItem audit_new_LB_game "Name" "Zelda")], [], []) ∧
    audit_load_LB_metadata_XML
      [⟨"Game", [⟨"Name", some "Zelda"⟩]⟩] ([], [], []) =
      ([("Zelda", setItem audit_new_LB_game "Name" "Zelda")], [], []) :=
  lb_nested_unknown_tag_aborts
    [⟨"Game", [⟨"Name", some "Zelda"⟩]⟩]
    [⟨"Game", [⟨"Name", some "Mario"⟩]⟩]
    ⟨"Game", [⟨"Foo", some "x"⟩]⟩
    ([], [], [])
    ([("Zelda", setItem audit_new_LB_game "Name" "Zelda")], [], [])
    rfl
    (Or.inl ⟨rfl, ⟨"Foo", some "x"⟩, by decide, by decide⟩)

/-! ## No-Intro loader: `audit_load_NoIntro_XML_file` (rom_audit.py) -/

/-- A root child element of a No-Intro DAT: its tag and its `name` /
`cloneof` attributes (absent attributes are `none`). -/
structure NIElem where
  tag : String
  nameAttr : Option String
  cloneofAttr : Option String
  deriving DecidableEq, Repr

/-- The input of the No-Intro loader, at the granularity the function
distinguishes: a missing file, a file whose parse raises
`ET.ParseError`/`IOError`, or a parsed root element list. -/
inductive NoIntroFile where
  | missing : NoIntroFile
  | unparsable : NoIntroFile
  | good (root : List NIElem) : NoIntroFile

/-- Outcome of a Python call: a returned value or an uncaught exception. -/
inductive PyOutcome (A : Type) where
  | returns (v : A) : PyOutcome A
  | raises (exc : String) : PyOutcome A
  deriving DecidableEq, Repr

/-- `audit_new_rom_logiqx()`: the default-field template, in source order. -/
def audit_new_rom_logiqx : List (String × String) :=
  [("name", ""), ("cloneof", ""), ("year", ""), ("manufacturer", "")]

/-- `audit_load_NoIntro_XML_file(xml_FN)` as written: a missing file and a
parse failure return the empty dictionary, but on a successful parse the
very next statement is `xml_root = xml_tree.getroot()`, and the name
`xml_tree` is bound nowhere in `rom_audit.py` nor in its star-imported
module `utils.py`, so the statement raises an uncaught `NameError` before
the `for root_element in xml_root` loop is reached. -/
def audit_load_NoIntro_XML_file :
    NoIntroFile → PyOutcome (List (String × List (String × String)))
  | .missing => .returns []
  | .unparsable => .returns []
  | .good _root => .raises "NameError"

/-- The mapping the function's own doc comment (and the spec) promise:
one entry per `<game>` element, keyed by its `name` attribute, holding the
name and the `cloneof` attribute when present.  Named separately so the
code's actual outcome can be compared against it. -/
def noIntroDocumented (root : List NIElem) :
    List (String × List (String × String)) :=
  root.foldl
    (fun acc el =>
      if el.tag == "game" then
        match el.nameAttr with
        | some n =>
            setItem acc n
              (setItem
                (match el.cloneofAttr with
                 | some c => setItem audit_new_rom_logiqx "cloneof" c
                 | none => audit_new_rom_logiqx)
                "name" n)
        | none => acc
      else acc)
    []

/-! ## BiosAuditor: `Libretro_BIOS_list` (rom_audit.py) -/

/-- One row of the static BIOS requirement table. -/
structure BiosEntry where
  filename : String
  size : Nat
  md5 : String
  mandatory : Bool
  cores : List String
  deriving DecidableEq, Repr

/-- The static `Libretro_BIOS_list` table, row by row from the source. -/
def Libretro_BIOS_list : List BiosEntry := [
  ⟨"5200.rom", 2048, "281f20ea4320404ec820fb7ec0693b38", true, ["atari800"]⟩,
  ⟨"7800 BIOS (E).rom", 16384, "397bb566584be7b9764e7a68974c4263", true, ["prosystem"]⟩,
  ⟨"7800 BIOS (U).rom", 4096, "0763f1ffb006ddbe32e52d497ee848ae", true, ["prosystem"]⟩,
  ⟨"lynxboot.img", 512, "fcd403db69f54290b51035d82f835e7b", true, ["mednafen_lynx", "handy"]⟩,
  ⟨"o2rom.bin", 1024, "562d5ebf9e030a40d6fabfc2f33139fd", true, ["o2em"]⟩,
  ⟨"MSX.ROM", 32768, "aa95aea2563cd5ec0a0919b44cc17d47", true, ["fmsx"]⟩,
  ⟨"MSX2.ROM", 32768, "ec3a01c91f24fbddcbcab0ad301bc9ef", true, ["fmsx"]⟩,
  ⟨"MSX2EXT.ROM", 16384, "2183c2aff17cf4297bdb496de78c2e8a", true, ["fmsx"]⟩,
  ⟨"MSX2P.ROM", 32768, "6d8c0ca64e726c82a4b726e9b01cdf1e", true, ["fmsx"]⟩,
  ⟨"MSX2PEXT.ROM", 16384, "7c8243c71d8f143b2531f01afa6a05dc", true, ["fmsx"]⟩,
  ⟨"syscard3.pce", 262144, "38179df8f4ac870017db21ebcbf53114", true, ["mednafen_pce_fast", "mednafen_supergrafx"]⟩,
  ⟨"gecard.pce", 32768, "6d2cb14fc3e1f65ceb135633d1694122", true, []⟩,
  ⟨"pcfx.rom", 1048576, "08e36edbea28a017f79f8d4f7ff9b6d7", true, ["mednafen_pcfx"]⟩,
  ⟨"fx-scsi.rom", 524288, "430e9745f9235c515bc8e652d6ca3004", true, []⟩,
  ⟨"pcfxbios.bin", 1048576, "08e36edbea28a017f79f8d4f7ff9b6d7", true, []⟩,
  ⟨"pcfxv101.bin", 1048576, "e2fb7c7220e3a7838c2dd7e401a7f3d8", true, []⟩,
  ⟨"pcfxga.rom", 1048576, "5885bc9a64bf80d4530b9b9b978ff587", true, []⟩,
  ⟨"disksys.rom", 8192, "ca30b50f880eb660a320674ed365ef7a", true, ["fceumm", "nestopia"]⟩,
  ⟨"gc-ntsc-10.bin", 2097152, "fc924a7c879b661abc37cec4f018fdf3", true, []⟩,
  ⟨"gc-pal-10.bin", 2097152, "0cdda509e2da83c85bfe423dd87346cc", true, []⟩,
  ⟨"gc-pal-12.bin", 2097152, "db92574caab77a7ec99d4605fd6f2450", true, []⟩,
  ⟨"gc-dvd-20010608.bin", 131072, "561532ad496f644897952d2cef5bb431", true, []⟩,
  ⟨"gc-dvd-20010831.bin", 131072, "b953eb1a8fc9922b3f7051c1cdc451f1", true, []⟩,
  ⟨"gc-dvd-20020402.bin", 131072, "413154dd0e2c824c9b18b807fd03ec4e", true, []⟩,
  ⟨"gc-dvd-20020823.bin", 131072, "c03f6bbaf644eb9b3ee261dbe199eb42", true, []⟩,
  ⟨"64DD_IPL.bin", 4194304, "8d3d9f294b6e174bc7b1d2fd1c727530", true, ["parallel"]⟩,
  ⟨"bios7.bin", 16384, "df692a80a5b1bc90728bc3dfc76cd948", true, []⟩,
  ⟨"bios9.bin", 4096, "a392174eb3e572fed6447e956bde4b25", true, []⟩,
  ⟨"firmware.bin", 262144, "e45033d9b0fa6b0de071292bba7c9d13", true, []⟩,
  ⟨"bios.min", 4096, "1e4fb124a3a886865acb574f388c803d", true, ["pokemini"]⟩,
  ⟨"c52.bin", 1024, "f1071cdb0b6b10dde94d3bc8a6146387", true, []⟩,
  ⟨"g7400.bin", 1024, "c500ff71236068e0dc0d0603d265ae76", true, []⟩,
  ⟨"jopac.bin", 1024, "279008e4a0db2dc5f1c048853b033828", true, []⟩,
  ⟨"dc/dc_boot.bin", 2097152, "e10c53c2f8b90bab96ead2d368858623", true, ["reicast", "redream"]⟩,
  ⟨"dc/dc_flash.bin", 131072, "0a93f7940c455905bea6e392dfde92a4", true, ["reicast", "redream"]⟩,
  ⟨"areplay.bin", 32768, "a0028b3043f9d59ceeb03da5b073b30d", false, ["genesis_plus_gx"]⟩,
  ⟨"bios.gg", 1024, "672e104c3be3a238301aceffc3b23fd6", false, ["genesis_plus_gx"]⟩,
  ⟨"bios_CD_E.bin", 131072, "e66fa1dc5820d254611fdcdba0662372", true, ["genesis_plus_gx", "picodrive"]⟩,
  ⟨"bios_CD_U.bin", 131072, "2efd74e3232ff260e371b99f84024f7f", true, ["genesis_plus_gx", "picodrive"]⟩,
  ⟨"bios_CD_J.bin", 131072, "278a9397d192149e84e820ac621a8edd", true, ["genesis_plus_gx", "picodrive"]⟩,
  ⟨"bios_E.sms", 8192, "840481177270d5642a14ca71ee72844c", false, ["genesis_plus_gx"]⟩,
  ⟨"bios_J.sms", 8192, "24a519c53f67b00640d0048ef7089105", false, ["genesis_plus_gx"]⟩,
  ⟨"bios_U.sms", 8192, "840481177270d5642a14ca71ee72844c", false, ["genesis_plus_gx"]⟩,
  ⟨"ggenie.bin", 32768, "b5d5ff1147036b06944b4d2cac2dd1e1", false, ["genesis_plus_gx"]⟩,
  ⟨"sk.bin", 2097152, "4ea493ea4e9f6c9ebfccbdb15110367e", false, ["genesis_plus_gx"]⟩,
  ⟨"sk2chip.bin", 262144, "b4e76e416b887f4e7413ba76fa735f16", false, []⟩,
  ⟨"mpr-17933.bin", 524288, "3240872c70984b6cbfda1586cab68dbe", true, ["mednafen_saturn"]⟩,
  ⟨"mpr-18811-mx.ic1", 2097152, "255113ba943c92a54facd25a10fd780c", true, ["mednafen_saturn"]⟩,
  ⟨"mpr-19367-mx.ic1", 2097152, "1cd19988d1d72a3e7caa0b73234c96b4", true, ["mednafen_saturn"]⟩,
  ⟨"sega_101.bin", 524288, "85ec9ca47d8f6807718151cbcca8b964", true, ["mednafen_saturn"]⟩,
  ⟨"saturn_bios.bin", 524288, "af5828fdff51384f99b3c4926be27762", false, []⟩,
  ⟨"cgrom.dat", 786432, "cb0a5cfcf7247a7eab74bb2716260269", true, []⟩,
  ⟨"iplrom.dat", 131072, "7fd4caabac1d9169e289f0f7bbf71d8e", true, []⟩,
  ⟨"scph5500.bin", 524288, "8dd7d5296a650fac7319bce665a6a53c", true, ["mednafen_psx", "mednafen_psx_hw", "pcsx_rearmed"]⟩,
  ⟨"scph5501.bin", 524288, "490f666e1afb15b7362b406ed1cea246", true, ["mednafen_psx", "mednafen_psx_hw", "pcsx_rearmed"]⟩,
  ⟨"scph5502.bin", 524288, "32736f17079d0b2b7024407c39bd3050", true, ["mednafen_psx", "mednafen_psx_hw", "pcsx_rearmed"]⟩,
  ⟨"ppge_atlas.zim", 784968, "a93fc411c1ce7d001a2a812643c70085", true, ["ppsspp", "psp1"]⟩,
  ⟨"goldstar.bin", 1048576, "8639fd5e549bd6238cfee79e3e749114", true, []⟩,
  ⟨"panafz1.bin", 1048576, "f47264dd47fe30f73ab3c010015c155b", true, []⟩,
  ⟨"panafz10.bin", 1048576, "51f2f43ae2f3508a14d9f56597e2d3ce", true, []⟩,
  ⟨"sanyotry.bin", 1048576, "35fa1a1ebaaeea286dc5cd15487c13ea", true, []⟩]

/-- One file of a system-directory listing, with its computed size and
MD5. -/
structure RomFileInfo where
  filename : String
  size : Nat
  md5 : String
  deriving DecidableEq, Repr

/-- Modelled from the spec: the BIOS audit routine itself is not among the
sources under verification (only its static requirement table is), so this
follows spec 4.5: "Select all static BiosEntry rows whose core set
contains core_id. For each, check the listing for a matching
filename/size/MD5; a mandatory entry failing this check is an audit
failure for that core, an optional entry failing is advisory-only." -/
def bios_audit (listing : List RomFileInfo) (core_id : String) :
    List (BiosEntry × Bool) :=
  (Libretro_BIOS_list.filter (fun e => e.cores.contains core_id)).map
    (fun e => (e, listing.any (fun f =>
      f.filename == e.filename && f.size == e.size && f.md5 == e.md5)))

/-- The `scph5500.bin` row of the table, for the PlayStation claims. -/
def scph5500 : BiosEntry :=
  ⟨"scph5500.bin", 524288, "8dd7d5296a650fac7319bce665a6a53c", true,
   ["mednafen_psx", "mednafen_psx_hw", "pcsx_rearmed"]⟩

/-- **C2.**  On an existing, well-formed No-Intro XML file the loader never
reaches its `<game>` loop: right after the successful parse it executes
`xml_root = xml_tree.getroot()` on the unbound name `xml_tree` and raises
`NameError`, instead of returning the one-entry-per-`<game>` mapping its
own doc comment describes. -/
theorem nointro_loader_raises_NameError :
    audit_load_NoIntro_XML_file
      (.good [⟨"game", some "Sonic (USA)", none⟩]) = .raises "NameError" ∧
    noIntroDocumented [⟨"game", some "Sonic (USA)", none⟩] =
      [("Sonic (USA)",
        [("name", "Sonic (USA)"), ("cloneof", ""), ("year", ""),
         ("manufacturer", "")])] :=
  ⟨rfl, rfl⟩

/-- **C9.**  For core `mednafen_psx` the audit selects the mandatory
`scph5500.bin` row (size 524288, MD5 `8dd7d5296a650fac7319bce665a6a53c`);
a listing without a file matching that filename/size/MD5 reports the row
unsatisfied, and a listing with a matching file reports it satisfied. -/
theorem bios_audit_scph5500 :
    scph5500 ∈ Libretro_BIOS_list.filter
      (fun e => e.cores.contains "mednafen_psx") ∧
    scph5500.mandatory = true ∧
    (scph5500, false) ∈ bios_audit
      [⟨"scph5501.bin", 524288, "490f666e1afb15b7362b406ed1cea246"⟩]
      "mednafen_psx" ∧
    (scph5500, true) ∈ bios_audit
      [⟨"scph5500.bin", 524288, "8dd7d5296a650fac7319bce665a6a53c"⟩]
      "mednafen_psx" := by
  refine ⟨by decide, rfl, by decide, by decide⟩

/-! ## MultiDiscDetector: `text_get_ROM_basename_tokens` and
`text_get_multidisc_info` (utils.py)

The tokenizer is `re.findall` with the alternation
`\[.+?\]|\(.+?\)|\{.+?\}|[^\[\(\{]+`.  `findall` scans left to right; a
position where no alternative matches is skipped (its character appears in
no token).  `.` does not match a newline; the negated character class
does.  The scan is implemented with a fuel argument (initially the string
length) to stay structurally recursive. -/

/-- Lazy search for `close` inside a bracket group: the shortest run of
non-newline characters followed by `close`; returns the run and the rest
after `close`. -/
def scanInner (close : Char) : List Char → Option (List Char × List Char)
  | [] => none
  | x :: t =>
      if x = close then some ([], t)
      else if x = '\n' then none
      else (scanInner close t).map (fun p => (x :: p.1, p.2))

/-- One attempt at `\[.+?\]` (resp. `(`, `{`) just after the opener: at
least one non-newline character, then lazily the closing bracket.  Returns
the inner run and the rest after the closer. -/
def matchBracket (close : Char) : List Char → Option (List Char × List Char)
  | [] => none
  | x :: t =>
      if x = '\n' then none
      else (scanInner close t).map (fun p => (x :: p.1, p.2))

/-- The closing bracket for an opening one, if `c` opens a group. -/
def openerOf (c : Char) : Option Char :=
  if c = '[' then some ']'
  else if c = '(' then some ')'
  else if c = '{' then some '}'
  else none

/-- A character outside all three bracket-opener kinds (the negated class
`[^\[\(\{]`). -/
def nonOpener (c : Char) : Bool :=
  !(c == '[') && !(c == '(') && !(c == '{')

/-- Fueled `re.findall` scan: returns the matched tokens in order and,
separately, the characters skipped because no alternative matched at their
position. -/
def scanTokensF : Nat → List Char → List (List Char) × List Char
  | _, [] => ([], [])
  | 0, s => ([], s)
  | fuel + 1, c :: t =>
      match openerOf c with
      | some close =>
          match matchBracket close t with
          | some (inner, rest) =>
              let p := scanTokensF fuel rest
              ((c :: inner ++ [close]) :: p.1, p.2)
          | none =>
              let p := scanTokensF fuel t
              (p.1, c :: p.2)
      | none =>
          let p := scanTokensF fuel (t.dropWhile nonOpener)
          ((c :: t.takeWhile nonOpener) :: p.1, p.2)

/-- `re.findall(reg_exp, basename_str)`: the raw token list. -/
def tokensRaw (s : List Char) : List (List Char) :=
  (scanTokensF s.length s).1

/-- The characters of `s` lost by the scan (empty iff every position
starts a match). -/
def scanSkipped (s : List Char) : List Char :=
  (scanTokensF s.length s).2

/-- `str.strip()` on a raw character list. -/
def pyStripL (l : List Char) : List Char :=
  ((l.dropWhile isPySpace).reverse.dropWhile isPySpace).reverse

/-- `text_get_ROM_basename_tokens(basename_str)`: findall, then strip each
token, then drop empty tokens, then drop bare `-` tokens. -/
def text_get_ROM_basename_tokens (s : List Char) : List (List Char) :=
  ((tokensRaw s).map pyStripL).filter
    (fun t => !t.isEmpty && !(t == ['-']))

example : tokensRaw "Super Mario Bros (USA) (Disc 1 of 2)".data =
    ["Super Mario Bros ".data, "(USA)".data, " ".data, "(Disc 1 of 2)".data] := by
  decide

example : text_get_ROM_basename_tokens "Super Mario Bros (USA) (Disc 1 of 2)".data =
    ["Super Mario Bros".data, "(USA)".data, "(Disc 1 of 2)".data] := by
  decide

/-- `int(matchObj.group(1))` for a digit group. -/
def digitsToNat (ds : List Char) : Nat :=
  ds.foldl (fun a c => a * 10 + (c.toNat - 48)) 0

/-- `re.match(r'\(Dis[ck] ([0-9]+)\)', token)`: anchored prefix match;
returns group 1 as a number. -/
def matchRedump : List Char → Option Nat
  | '(' :: 'D' :: 'i' :: 's' :: ck :: ' ' :: rest =>
      if ck = 'c' ∨ ck = 'k' then
        let ds := rest.takeWhile Char.isDigit
        if ds.isEmpty then none
        else
          match rest.dropWhile Char.isDigit with
          | ')' :: _ => some (digitsToNat ds)
          | _ => none
      else none
  | _ => none

/-- `re.match(r'\(Dis[ck] ([0-9]+) of ([0-9]+)\)', token)`: anchored
prefix match; returns group 1 as a number. -/
def matchTosec : List Char → Option Nat
  | '(' :: 'D' :: 'i' :: 's' :: ck :: ' ' :: rest =>
      if ck = 'c' ∨ ck = 'k' then
        let ds := rest.takeWhile Char.isDigit
        if ds.isEmpty then none
        else
          match rest.dropWhile Char.isDigit with
          | ' ' :: 'o' :: 'f' :: ' ' :: rest2 =>
              let ds2 := rest2.takeWhile Char.isDigit
              if ds2.isEmpty then none
              else
                match rest2.dropWhile Char.isDigit with
                | ')' :: _ => some (digitsToNat ds)
                | _ => none
          | _ => none
      else none
  | _ => none

/-- The `for index, token in enumerate(tokens)` loop: first token matching
Redump (tried first) or TOSEC/Trurip; returns the disc order and the token
list with the marker token removed. -/
def discScan : List (List Char) → Option (Nat × List (List Char))
  | [] => none
  | tok :: rest =>
      match matchRedump tok with
      | some n => some (n, rest)
      | none =>
          match matchTosec tok with
          | some n => some (n, rest)
          | none => (discScan rest).map (fun p => (p.1, tok :: p.2))

/-- The `MultiDiscInfo` result object. -/
structure MultiDiscInfo where
  isMultiDisc : Bool
  setName : String
  discName : String
  extension : String
  order : Nat
  deriving DecidableEq, Repr

/-- `text_get_multidisc_info(ROM_FN)`, with the file name split into its
basename without extension and its extension (`ROM_FN.getBaseNoExt()` and
`ROM_FN.getExt()`; `discName` is `ROM_FN.getBase()`). -/
def text_get_multidisc_info (base_noext extension : String) : MultiDiscInfo :=
  match discScan (text_get_ROM_basename_tokens base_noext.data) with
  | some p =>
      { isMultiDisc := true
        setName := ⟨List.intercalate [' '] p.2 ++ extension.data⟩
        discName := base_noext ++ extension
        extension := extension
        order := p.1 }
  | none =>
      { isMultiDisc := false
        setName := ""
        discName := base_noext ++ extension
        extension := extension
        order := 0 }

lemma length_dropWhile_le {A : Type} (p : A → Bool) (l : List A) :
    (l.dropWhile p).length ≤ l.length := by
  induction l with
  | nil => simp
  | cons a l ih =>
      rw [List.dropWhile_cons]
      by_cases hp : p a = true
      · rw [if_pos hp]
        simp
        omega
      · rw [if_neg hp]

lemma scanInner_decomp (close : Char) (t i r : List Char)
    (h : scanInner close t = some (i, r)) : t = i ++ close :: r := by
  induction t generalizing i with
  | nil => cases h
  | cons x t ih =>
      rw [scanInner] at h
      by_cases hx : x = close
      · rw [if_pos hx] at h
        cases h
        simpa using hx
      · rw [if_neg hx] at h
        by_cases hn : x = '\n'
        · rw [if_pos hn] at h
          cases h
        · rw [if_neg hn] at h
          cases hsi : scanInner close t with
          | none => rw [hsi] at h; cases h
          | some p =>
              rw [hsi, Option.map_some'] at h
              cases h
              simpa using ih p.1 (by rw [hsi])

lemma matchBracket_decomp (close : Char) (t inner rest : List Char)
    (h : matchBracket close t = some (inner, rest)) :
    t = inner ++ close :: rest := by
  cases t with
  | nil => cases h
  | cons x t =>
      rw [matchBracket] at h
      by_cases hn : x = '\n'
      · rw [if_pos hn] at h
        cases h
      · rw [if_neg hn] at h
        cases hsi : scanInner close t with
        | none => rw [hsi] at h; cases h
        | some p =>
            rw [hsi, Option.map_some'] at h
            cases h
            simpa using scanInner_decomp close t p.1 p.2 hsi

lemma matchBracket_rest_lt (close : Char) (t inner rest : List Char)
    (h : matchBracket close t = some (inner, rest)) :
    rest.length < t.length := by
  have := matchBracket_decomp close t inner rest h
  subst this
  simp
  omega

lemma scanTokensF_nil (fuel : Nat) : scanTokensF fuel [] = ([], []) := by
  cases fuel <;> rfl

lemma scanTokensF_fuel : ∀ (f1 f2 : Nat) (s : List Char),
    s.length ≤ f1 → s.length ≤ f2 → scanTokensF f1 s = scanTokensF f2 s := by
  intro f1
  induction f1 with
  | zero =>
      intro f2 s h1 _
      rw [List.length_eq_zero.mp (Nat.le_zero.mp h1), scanTokensF_nil,
        scanTokensF_nil]
  | succ f1 ih =>
      intro f2 s h1 h2
      cases s with
      | nil => rw [scanTokensF_nil, scanTokensF_nil]
      | cons c t =>
          cases f2 with
          | zero => simp at h2
          | succ g =>
              simp only [List.length_cons, Nat.succ_le_succ_iff] at h1 h2
              show (match openerOf c with
                | some close =>
                    match matchBracket close t with
                    | some (inner, rest) =>
                        let p := scanTokensF f1 rest
                        ((c :: inner ++ [close]) :: p.1, p.2)
                    | none =>
                        let p := scanTokensF f1 t
                        (p.1, c :: p.2)
                | none =>
                    let p := scanTokensF f1 (t.dropWhile nonOpener)
                    ((c :: t.takeWhile nonOpener) :: p.1, p.2)) =
                (match openerOf c with
                | some close =>
                    match matchBracket close t with
                    | some (inner, rest) =>
                        let p := scanTokensF g rest
                        ((c :: inner ++ [close]) :: p.1, p.2)
                    | none =>
                        let p := scanTokensF g t
                        (p.1, c :: p.2)
                | none =>
                    let p := scanTokensF g (t.dropWhile nonOpener)
                    ((c :: t.takeWhile nonOpener) :: p.1, p.2))
              cases hop : openerOf c with
              | some close =>
                  cases hmb : matchBracket close t with
                  | some q =>
                      obtain ⟨qi, qr⟩ := q
                      have hlt := matchBracket_rest_lt close t qi qr
                        (by rw [hmb])
                      simp only [hmb]
                      rw [ih g qr (by omega) (by omega)]
                  | none =>
                      simp only [hmb]
                      rw [ih g t h1 h2]
              | none =>
                  have hd : (t.dropWhile nonOpener).length ≤ t.length :=
                    length_dropWhile_le nonOpener t
                  simp only []
                  rw [ih g (t.dropWhile nonOpener) (by omega) (by omega)]

lemma scanTokensF_cons (c : Char) (t : List Char) :
    scanTokensF (t.length + 1) (c :: t) =
      match openerOf c with
      | some close =>
          match matchBracket close t with
          | some (inner, rest) =>
              let p := scanTokensF rest.length rest
              ((c :: inner ++ [close]) :: p.1, p.2)
          | none =>
              let p := scanTokensF t.length t
              (p.1, c :: p.2)
      | none =>
          let p := scanTokensF (t.dropWhile nonOpener).length
            (t.dropWhile nonOpener)
          ((c :: t.takeWhile nonOpener) :: p.1, p.2) := by
  show (match openerOf c with
    | some close =>
        match matchBracket close t with
        | some (inner, rest) =>
            let p := scanTokensF t.length rest
            ((c :: inner ++ [close]) :: p.1, p.2)
        | none =>
            let p := scanTokensF t.length t
            (p.1, c :: p.2)
    | none =>
        let p := scanTokensF t.length (t.dropWhile nonOpener)
        ((c :: t.takeWhile nonOpener) :: p.1, p.2)) = _
  cases hop : openerOf c with
  | some close =>
      cases hmb : matchBracket close t with
      | some q =>
          obtain ⟨qi, qr⟩ := q
          have hlt := matchBracket_rest_lt close t qi qr (by rw [hmb])
          simp only [hmb]
          rw [scanTokensF_fuel t.length qr.length qr (by omega) (by omega)]
      | none => simp only [hmb]
  | none =>
      have hd : (t.dropWhile nonOpener).length ≤ t.length :=
        length_dropWhile_le nonOpener t
      simp only []
      rw [scanTokensF_fuel t.length (t.dropWhile nonOpener).length
        (t.dropWhile nonOpener) (by omega) (by omega)]

lemma tokensRaw_join_aux : ∀ (N : Nat) (s : List Char), s.length ≤ N →
    scanSkipped s = [] → (tokensRaw s).flatten = s := by
  intro N
  induction N with
  | zero =>
      intro s h1 _
      rw [List.length_eq_zero.mp (Nat.le_zero.mp h1)]
      rfl
  | succ N ih =>
      intro s h1 hskip
      cases s with
      | nil => rfl
      | cons c t =>
          unfold tokensRaw scanSkipped at *
          simp only [List.length_cons] at h1 hskip ⊢
          rw [scanTokensF_cons] at hskip ⊢
          cases hop : openerOf c with
          | some close =>
              cases hmb : matchBracket close t with
              | some q =>
                  obtain ⟨qi, qr⟩ := q
                  simp only [hop, hmb] at hskip ⊢
                  have hlt := matchBracket_rest_lt close t qi qr (by rw [hmb])
                  rw [List.flatten_cons]
                  rw [ih qr (by simp only [Nat.succ_le_succ_iff] at h1; omega)
                    hskip]
                  have := matchBracket_decomp close t qi qr (by rw [hmb])
                  rw [this]
                  simp
              | none =>
                  simp only [hop, hmb] at hskip
                  simp at hskip
          | none =>
              simp only [hop] at hskip ⊢
              rw [List.flatten_cons]
              rw [ih (t.dropWhile nonOpener)
                (by have := length_dropWhile_le nonOpener t
                    simp only [Nat.succ_le_succ_iff] at h1
                    omega) hskip]
              simp [List.takeWhile_append_dropWhile]

/-- **C6.**  The claim as stated: for every input string the raw token
sequence concatenates back to the input.  False: at a position where no
alternative of the regex matches — an opening bracket never closed, such
as the sole character of `"["` — `re.findall` skips the character, so it
appears in no token. -/
theorem tokenizer_reconstruct_counterexample :
    ¬ (∀ s : List Char, (tokensRaw s).flatten = s) := by
  intro h
  have := h "[".data
  revert this
  decide

/-- **C6** (amended).  Whenever the scan skips no character — every
position starts a bracketed group, a parenthesized group, a braced group
or a run outside the bracket kinds — the raw tokens concatenate, in order,
to the original string. -/
theorem tokenizer_reconstructs (s : List Char) (h : scanSkipped s = []) :
    (tokensRaw s).flatten = s :=
  tokensRaw_join_aux s.length s (Nat.le_refl _) h

/-- Witness for `tokenizer_reconstructs` at a realistic ROM basename. -/
theorem tokenizer_reconstructs_witness :
    (tokensRaw "Sonic The Hedgehog (USA) [!]".data).flatten =
      "Sonic The Hedgehog (USA) [!]".data :=
  tokenizer_reconstructs "Sonic The Hedgehog (USA) [!]".data (by decide)

/-- **C7.**  The two documented multi-disc examples: a TOSEC `Disc N of M`
marker is detected with its order and set name (marker token removed,
single-space join, extension appended), and a plain release is not
multi-disc with an empty set name. -/
theorem multidisc_examples :
    text_get_multidisc_info "Super Mario Bros (USA) (Disc 1 of 2)" ".zip" =
      { isMultiDisc := true
        setName := "Super Mario Bros (USA).zip"
        discName := "Super Mario Bros (USA) (Disc 1 of 2).zip"
        extension := ".zip"
        order := 1 } ∧
    (text_get_multidisc_info "Sonic The Hedgehog (USA)" ".zip").isMultiDisc
      = false ∧
    (text_get_multidisc_info "Sonic The Hedgehog (USA)" ".zip").setName
      = "" := by
  refine ⟨by decide, rfl, rfl⟩

/-! ## ChecksumEngine: `misc_calculate_checksums` (utils.py)

Byte strings are `List Nat` with every element a byte value.  `hashlib`'s
incremental digests are modelled by accumulating the fed chunks and
digesting the accumulated bytes; `zlib.crc32(piece, prev)` is the
standard reflected CRC-32 with a running seed. -/

/-- `misc_read_in_chunks`: split into successive `size`-byte chunks,
fueled to stay structural. -/
def chunksF (size : Nat) : Nat → List Nat → List (List Nat)
  | _, [] => []
  | 0, _ => []
  | fuel + 1, l => l.take size :: chunksF size fuel (l.drop size)

/-- `misc_read_in_chunks(f)` with the default 8 KiB chunk size. -/
def misc_read_in_chunks (l : List Nat) : List (List Nat) :=
  chunksF 8192 l.length l

/-- One bit step of the reflected CRC-32 (polynomial `0xEDB88320`). -/
def crcStep (c : Nat) : Nat :=
  if c % 2 = 1 then Nat.xor (c / 2) 0xEDB88320 else c / 2

/-- Feed one byte into the running CRC. -/
def crc32_update_byte (c b : Nat) : Nat :=
  crcStep (crcStep (crcStep (crcStep (crcStep (crcStep (crcStep (crcStep
    (Nat.xor c (b % 256)))))))))

/-- `zlib.crc32(data, prev)`. -/
def zlib_crc32 (data : List Nat) (prev : Nat) : Nat :=
  Nat.xor (data.foldl crc32_update_byte (Nat.xor prev 4294967295)) 4294967295

/-- Rotate a 32-bit word left by `s`. -/
def rotl32 (x s : Nat) : Nat :=
  Nat.lor ((x <<< s) % 4294967296) (x >>> (32 - s))

/-- `k` little-endian bytes of `n`. -/
def natLEBytes : Nat → Nat → List Nat
  | _, 0 => []
  | n, k + 1 => (n % 256) :: natLEBytes (n / 256) k

/-- `k` big-endian bytes of `n`. -/
def natBEBytes (n k : Nat) : List Nat :=
  (natLEBytes n k).reverse

/-- The 64 MD5 round constants `floor(abs(sin(i+1)) * 2^32)`. -/
def md5_K : List Nat :=
  [   3614090360, 3905402710, 606105819, 3250441966, 4118548399, 1200080426, 2821735955, 4249261313,
   1770035416, 2336552879, 4294925233, 2304563134, 1804603682, 4254626195, 2792965006, 1236535329,
   4129170786, 3225465664, 643717713, 3921069994, 3593408605, 38016083, 3634488961, 3889429448,
   568446438, 3275163606, 4107603335, 1163531501, 2850285829, 4243563512, 1735328473, 2368359562,
   4294588738, 2272392833, 1839030562, 4259657740, 2763975236, 1272893353, 4139469664, 3200236656,
   681279174, 3936430074, 3572445317, 76029189, 3654602809, 3873151461, 530742520, 3299628645,
   4096336452, 1126891415, 2878612391, 4237533241, 1700485571, 2399980690, 4293915773, 2240044497,
   1873313359, 4264355552, 2734768916, 1309151649, 4149444226, 3174756917, 718787259, 3951481745]

/-- The 64 MD5 per-round rotate amounts. -/
def md5_s : List Nat :=
  [   7, 12, 17, 22, 7, 12, 17, 22, 7, 12, 17, 22, 7, 12, 17, 22,
   5, 9, 14, 20, 5, 9, 14, 20, 5, 9, 14, 20, 5, 9, 14, 20,
   4, 11, 16, 23, 4, 11, 16, 23, 4, 11, 16, 23, 4, 11, 16, 23,
   6, 10, 15, 21, 6, 10, 15, 21, 6, 10, 15, 21, 6, 10, 15, 21]

/-- MD5 initial state. -/
def md5_init : Nat × Nat × Nat × Nat :=
  (0x67452301, 0xefcdab89, 0x98badcfe, 0x10325476)

/-- MD5 round function `F` (by round quarter). -/
def md5_F (i B C D : Nat) : Nat :=
  if i < 16 then Nat.lor (Nat.land B C) (Nat.land (Nat.xor B 4294967295) D)
  else if i < 32 then Nat.lor (Nat.land D B) (Nat.land (Nat.xor D 4294967295) C)
  else if i < 48 then Nat.xor B (Nat.xor C D)
  else Nat.xor C (Nat.lor B (Nat.xor D 4294967295))

/-- MD5 message-word index per round. -/
def md5_g (i : Nat) : Nat :=
  if i < 16 then i
  else if i < 32 then (5 * i + 1) % 16
  else if i < 48 then (3 * i + 5) % 16
  else (7 * i) % 16

/-- One MD5 round on state `(A, B, C, D)`. -/
def md5_round (M : List Nat) (st : Nat × Nat × Nat × Nat) (i : Nat) :
    Nat × Nat × Nat × Nat :=
  let F := (md5_F i st.2.1 st.2.2.1 st.2.2.2 + st.1 + md5_K.getD i 0 +
    M.getD (md5_g i) 0) % 4294967296
  (st.2.2.2, (st.2.1 + rotl32 F (md5_s.getD i 0)) % 4294967296, st.2.1,
   st.2.2.1)

/-- Split a 64-byte block into 16 little-endian 32-bit words. -/
def toWordsLE : List Nat → List Nat
  | b0 :: b1 :: b2 :: b3 :: rest =>
      (b0 % 256 + 256 * (b1 % 256) + 65536 * (b2 % 256) +
        16777216 * (b3 % 256)) :: toWordsLE rest
  | _ => []

/-- Process one 64-byte block of MD5. -/
def md5_block (st : Nat × Nat × Nat × Nat) (block : List Nat) :
    Nat × Nat × Nat × Nat :=
  let M := toWordsLE block
  let r := (List.range 64).foldl (md5_round M) st
  ((st.1 + r.1) % 4294967296, (st.2.1 + r.2.1) % 4294967296,
   (st.2.2.1 + r.2.2.1) % 4294967296, (st.2.2.2 + r.2.2.2) % 4294967296)

/-- MD5 padding: `0x80`, zeros to 56 mod 64, 64-bit little-endian bit
length. -/
def md5_pad (msg : List Nat) : List Nat :=
  msg ++ 128 :: List.replicate ((119 - msg.length % 64) % 64) 0 ++
    natLEBytes ((8 * msg.length) % 18446744073709551616) 8

/-- The 16 MD5 digest bytes of a message. -/
def md5_bytes (msg : List Nat) : List Nat :=
  let padded := md5_pad msg
  let st := (chunksF 64 padded.length padded).foldl md5_block md5_init
  natLEBytes st.1 4 ++ natLEBytes st.2.1 4 ++ natLEBytes st.2.2.1 4 ++
    natLEBytes st.2.2.2 4

/-- SHA-1 initial state. -/
def sha1_init : Nat × Nat × Nat × Nat × Nat :=
  (0x67452301, 0xEFCDAB89, 0x98BADCFE, 0x10325476, 0xC3D2E1F0)

/-- Split a 64-byte block into 16 big-endian 32-bit words. -/
def toWordsBE : List Nat → List Nat
  | b0 :: b1 :: b2 :: b3 :: rest =>
      ((b0 % 256) * 16777216 + (b1 % 256) * 65536 + (b2 % 256) * 256 +
        b3 % 256) :: toWordsBE rest
  | _ => []

/-- Expand 16 words to the 80 SHA-1 schedule words. -/
def sha1_expand (M : List Nat) : List Nat :=
  (List.range 80).foldl
    (fun w i =>
      if i < 16 then w ++ [M.getD i 0]
      else w ++ [rotl32 (Nat.xor (w.getD (i - 3) 0) (Nat.xor (w.getD (i - 8) 0)
        (Nat.xor (w.getD (i - 14) 0) (w.getD (i - 16) 0)))) 1])
    []

/-- SHA-1 round function (by 20-round quarter). -/
def sha1_f (i b c d : Nat) : Nat :=
  if i < 20 then Nat.lor (Nat.land b c) (Nat.land (Nat.xor b 4294967295) d)
  else if i < 40 then Nat.xor b (Nat.xor c d)
  else if i < 60 then
    Nat.lor (Nat.lor (Nat.land b c) (Nat.land b d)) (Nat.land c d)
  else Nat.xor b (Nat.xor c d)

/-- SHA-1 round constant (by 20-round quarter). -/
def sha1_k (i : Nat) : Nat :=
  if i < 20 then 0x5A827999
  else if i < 40 then 0x6ED9EBA1
  else if i < 60 then 0x8F1BBCDC
  else 0xCA62C1D6

/-- One SHA-1 round on state `(a, b, c, d, e)`. -/
def sha1_round (w : List Nat) (st : Nat × Nat × Nat × Nat × Nat) (i : Nat) :
    Nat × Nat × Nat × Nat × Nat :=
  ((rotl32 st.1 5 + sha1_f i st.2.1 st.2.2.1 st.2.2.2.1 + st.2.2.2.2 +
      sha1_k i + w.getD i 0) % 4294967296,
   st.1, rotl32 st.2.1 30, st.2.2.1, st.2.2.2.1)

/-- Process one 64-byte block of SHA-1. -/
def sha1_block (st : Nat × Nat × Nat × Nat × Nat) (block : List Nat) :
    Nat × Nat × Nat × Nat × Nat :=
  let w := sha1_expand (toWordsBE block)
  let r := (List.range 80).foldl (sha1_round w) st
  ((st.1 + r.1) % 4294967296, (st.2.1 + r.2.1) % 4294967296,
   (st.2.2.1 + r.2.2.1) % 4294967296, (st.2.2.2.1 + r.2.2.2.1) % 4294967296,
   (st.2.2.2.2 + r.2.2.2.2) % 4294967296)

/-- SHA-1 padding: like MD5 but with a big-endian bit length. -/
def sha1_pad (msg : List Nat) : List Nat :=
  msg ++ 128 :: List.replicate ((119 - msg.length % 64) % 64) 0 ++
    natBEBytes ((8 * msg.length) % 18446744073709551616) 8

/-- The 20 SHA-1 digest bytes of a message. -/
def sha1_bytes (msg : List Nat) : List Nat :=
  let padded := sha1_pad msg
  let st := (chunksF 64 padded.length padded).foldl sha1_block sha1_init
  natBEBytes st.1 4 ++ natBEBytes st.2.1 4 ++ natBEBytes st.2.2.1 4 ++
    natBEBytes st.2.2.2.1 4 ++ natBEBytes st.2.2.2.2 4

/-- An uppercase hex digit. -/
def hexDigitUpper (d : Nat) : Char :=
  if d < 10 then Char.ofNat (48 + d) else Char.ofNat (55 + d)

/-- A lowercase hex digit (as `hexdigest()` produces). -/
def hexDigitLower (d : Nat) : Char :=
  if d < 10 then Char.ofNat (48 + d) else Char.ofNat (87 + d)

/-- Fueled most-significant-first hex digits of `n` (empty for 0). -/
def hexDigitsF : Nat → Nat → List Char → List Char
  | 0, _, acc => acc
  | fuel + 1, n, acc =>
      if n = 0 then acc
      else hexDigitsF fuel (n / 16) (hexDigitUpper (n % 16) :: acc)

/-- `'{:08X}'.format(n)`: uppercase hex, zero-padded to (at least) eight
digits. -/
def format08X (n : Nat) : List Char :=
  let ds := if n = 0 then ['0'] else hexDigitsF n n []
  List.replicate (8 - ds.length) '0' ++ ds

/-- `hexdigest()`: two lowercase hex digits per byte. -/
def toHexLower : List Nat → List Char
  | [] => []
  | b :: bs => hexDigitLower (b / 16) :: hexDigitLower (b % 16) :: toHexLower bs

/-- Python `str.upper()` on ASCII. -/
def pyUpperChar (c : Char) : Char :=
  if 'a' ≤ c ∧ c ≤ 'z' then Char.ofNat (c.toNat - 32) else c

/-- Python `str.upper()`. -/
def pyUpper (l : List Char) : List Char :=
  l.map pyUpperChar

/-- The checksums dictionary returned on success. -/
structure ChecksumResult where
  crc : String
  md5 : String
  sha1 : String
  size : Nat
  deriving DecidableEq, Repr

/-- `misc_calculate_checksums(full_file_path)`: `none` models any I/O
failure (the bare `except` catches everything and returns `None`); on
success the file is read in 8 KiB chunks, CRC-32 runs with a carried seed
across chunks, MD5/SHA-1 accumulate the chunks, and the digests are
formatted uppercase. -/
def misc_calculate_checksums (file : Option (List Nat)) :
    Option ChecksumResult :=
  match file with
  | none => none
  | some content =>
      let pieces := misc_read_in_chunks content
      let crc_prev := pieces.foldl (fun prev piece => zlib_crc32 piece prev) 0
      some
        { crc := ⟨pyUpper (format08X (Nat.land crc_prev 4294967295))⟩
          md5 := ⟨pyUpper (toHexLower (md5_bytes pieces.flatten))⟩
          sha1 := ⟨pyUpper (toHexLower (sha1_bytes pieces.flatten))⟩
          size := content.length }

/-- The eleven bytes of `"hello world"`. -/
def helloWorld : List Nat :=
  "hello world".data.map Char.toNat

/-- `c` is an uppercase hexadecimal digit. -/
def isHexUpper (c : Char) : Bool :=
  "0123456789ABCDEF".data.contains c

example : (misc_calculate_checksums (some helloWorld)).map (fun r => r.md5) =
    some "5EB63BBBE01EEED093CB22BB8F5ACDC3" := by decide

example : (misc_calculate_checksums (some helloWorld)).map (fun r => r.crc) =
    some "0D4A1185" := by decide

example : (misc_calculate_checksums (some helloWorld)).map (fun r => r.sha1) =
    some "2AAE6C35C94FCFB415DBE95F408B9CE91EE846ED" := by decide

lemma natLEBytes_length (k : Nat) : ∀ n, (natLEBytes n k).length = k := by
  induction k with
  | zero => intro n; rfl
  | succ k ih => intro n; simp [natLEBytes, ih]

lemma natLEBytes_lt (k : Nat) : ∀ n, ∀ b ∈ natLEBytes n k, b < 256 := by
  induction k with
  | zero => intro n b hb; cases hb
  | succ k ih =>
      intro n b hb
      rcases List.mem_cons.mp hb with h | h
      · subst h
        exact Nat.mod_lt _ (by norm_num)
      · exact ih (n / 256) b h

lemma natBEBytes_length (n k : Nat) : (natBEBytes n k).length = k := by
  simp [natBEBytes, natLEBytes_length]

lemma natBEBytes_lt (n k : Nat) : ∀ b ∈ natBEBytes n k, b < 256 := by
  intro b hb
  exact natLEBytes_lt k n b (List.mem_reverse.mp hb)

lemma md5_bytes_length (msg : List Nat) : (md5_bytes msg).length = 16 := by
  simp [md5_bytes, natLEBytes_length]

lemma md5_bytes_lt (msg : List Nat) : ∀ b ∈ md5_bytes msg, b < 256 := by
  intro b hb
  simp only [md5_bytes, List.mem_append] at hb
  rcases hb with ((h | h) | h) | h <;> exact natLEBytes_lt 4 _ b h

lemma sha1_bytes_length (msg : List Nat) : (sha1_bytes msg).length = 20 := by
  simp [sha1_bytes, natBEBytes_length]

lemma sha1_bytes_lt (msg : List Nat) : ∀ b ∈ sha1_bytes msg, b < 256 := by
  intro b hb
  simp only [sha1_bytes, List.mem_append] at hb
  rcases hb with (((h | h) | h) | h) | h <;> exact natBEBytes_lt _ 4 b h

lemma hexUpper_digit : ∀ d < 16, isHexUpper (hexDigitUpper d) = true := by
  decide

lemma hexUpper_upper_lower :
    ∀ d < 16, isHexUpper (pyUpperChar (hexDigitLower d)) = true := by
  decide

lemma toHexLower_length (bs : List Nat) :
    (toHexLower bs).length = 2 * bs.length := by
  induction bs with
  | nil => rfl
  | cons b bs ih => simp [toHexLower, ih]; omega

lemma pyUpper_toHex_all (bs : List Nat) (h : ∀ b ∈ bs, b < 256) :
    (pyUpper (toHexLower bs)).all isHexUpper = true := by
  induction bs with
  | nil => rfl
  | cons b bs ih =>
      have hb : b < 256 := h b (List.mem_cons_self _ _)
      have h1 : b / 16 < 16 := by omega
      have h2 : b % 16 < 16 := Nat.mod_lt _ (by norm_num)
      simp only [toHexLower, pyUpper, List.map_cons, List.all_cons,
        Bool.and_eq_true]
      exact ⟨hexUpper_upper_lower _ h1,
        hexUpper_upper_lower _ h2,
        by simpa [pyUpper] using ih (fun x hx => h x (List.mem_cons_of_mem _ hx))⟩

lemma hexDigitsF_length : ∀ (fuel n : Nat) (acc : List Char) (k : Nat),
    n < 16 ^ k → (hexDigitsF fuel n acc).length ≤ k + acc.length := by
  intro fuel
  induction fuel with
  | zero =>
      intro n acc k _
      simp [hexDigitsF]
  | succ fuel ih =>
      intro n acc k hk
      rw [hexDigitsF]
      by_cases hn : n = 0
      · rw [if_pos hn]
        omega
      · rw [if_neg hn]
        cases k with
        | zero =>
            simp at hk
            omega
        | succ k =>
            have hdiv : n / 16 < 16 ^ k := by
              rw [Nat.div_lt_iff_lt_mul (by norm_num)]
              calc n < 16 ^ (k + 1) := hk
                _ = 16 ^ k * 16 := by ring
            have := ih (n / 16) (hexDigitUpper (n % 16) :: acc) k hdiv
            simp at this ⊢
            omega

lemma hexDigitsF_all : ∀ (fuel n : Nat) (acc : List Char),
    acc.all isHexUpper = true → (hexDigitsF fuel n acc).all isHexUpper = true := by
  intro fuel
  induction fuel with
  | zero => intro n acc h; exact h
  | succ fuel ih =>
      intro n acc h
      rw [hexDigitsF]
      by_cases hn : n = 0
      · rw [if_pos hn]
        exact h
      · rw [if_neg hn]
        exact ih (n / 16) _ (by
          simp only [List.all_cons, Bool.and_eq_true]
          exact ⟨hexUpper_digit _ (Nat.mod_lt _ (by norm_num)), h⟩)

lemma format08X_length (n : Nat) (h : n < 4294967296) :
    (format08X n).length = 8 := by
  unfold format08X
  by_cases hn : n = 0
  · simp [hn]
  · rw [if_neg hn]
    have := hexDigitsF_length n n [] 8 (by norm_num at h ⊢; omega)
    simp at this ⊢
    omega

lemma format08X_all (n : Nat) : (format08X n).all isHexUpper = true := by
  unfold format08X
  rw [List.all_append]
  refine Bool.and_eq_true_iff.mpr ⟨?_, ?_⟩
  · rw [List.all_eq_true]
    intro c hc
    rw [List.eq_of_mem_replicate hc]
    decide
  · by_cases hn : n = 0
    · rw [if_pos hn]
      decide
    · rw [if_neg hn]
      exact hexDigitsF_all n n [] rfl

lemma pyUpperChar_hex (c : Char) (h : isHexUpper c = true) :
    pyUpperChar c = c := by
  simp [isHexUpper, List.contains, List.elem_eq_mem] at h
  rcases h with h | h | h | h | h | h | h | h | h | h | h | h | h | h | h | h <;>
    subst h <;> decide

lemma pyUpper_of_all_hex (l : List Char) (h : l.all isHexUpper = true) :
    pyUpper l = l := by
  induction l with
  | nil => rfl
  | cons c l ih =>
      simp only [List.all_cons, Bool.and_eq_true] at h
      simp [pyUpper, pyUpperChar_hex c h.1]
      simpa [pyUpper] using ih h.2

lemma land_mask_lt (n : Nat) : Nat.land n 4294967295 < 4294967296 := by
  have h : n &&& 4294967295 ≤ 4294967295 := Nat.and_le_right
  have he : Nat.land n 4294967295 = n &&& 4294967295 := rfl
  omega

/-- **C8.**  Any I/O failure makes the checksum call return `None`; on the
11-byte content `"hello world"` it returns MD5
`5EB63BBBE01EEED093CB22BB8F5ACDC3` and size 11; and for every content the
CRC is eight uppercase hex digits of the 32-bit-masked running CRC and the
MD5/SHA-1 fields are uppercase hex of their native digest lengths. -/
theorem misc_calculate_checksums_spec :
    misc_calculate_checksums none = none ∧
    (misc_calculate_checksums (some helloWorld)).map (fun r => r.md5) =
      some "5EB63BBBE01EEED093CB22BB8F5ACDC3" ∧
    (misc_calculate_checksums (some helloWorld)).map (fun r => r.size) =
      some 11 ∧
    ∀ content : List Nat, ∃ r,
      misc_calculate_checksums (some content) = some r ∧
      r.crc.length = 8 ∧ r.crc.data.all isHexUpper = true ∧
      r.md5.length = 32 ∧ r.md5.data.all isHexUpper = true ∧
      r.sha1.length = 40 ∧ r.sha1.data.all isHexUpper = true := by
  refine ⟨rfl, by decide, by decide, ?_⟩
  intro content
  refine ⟨_, rfl, ?_, ?_, ?_, ?_, ?_, ?_⟩
  · show (pyUpper (format08X _)).length = 8
    rw [pyUpper, List.length_map]
    exact format08X_length _ (land_mask_lt _)
  · show (pyUpper (format08X _)).all isHexUpper = true
    rw [pyUpper_of_all_hex _ (format08X_all _)]
    exact format08X_all _
  · show (pyUpper (toHexLower (md5_bytes _))).length = 32
    rw [pyUpper, List.length_map, toHexLower_length, md5_bytes_length]
  · exact pyUpper_toHex_all _ (md5_bytes_lt _)
  · show (pyUpper (toHexLower (sha1_bytes _))).length = 40
    rw [pyUpper, List.length_map, toHexLower_length, sha1_bytes_length]
  · exact pyUpper_toHex_all _ (sha1_bytes_lt _)

lemma stripPrefixQ_append (ps rest : List Char) :
    stripPrefixQ ps (ps ++ rest) = some rest := by
  induction ps with
  | nil => rfl
  | cons p ps ih => simp [stripPrefixQ, ih]

lemma stripPrefixQ_decomp : ∀ (ps t rest : List Char),
    stripPrefixQ ps t = some rest → t = ps ++ rest := by
  intro ps
  induction ps with
  | nil =>
      intro t rest h
      cases h
      rfl
  | cons p ps ih =>
      intro t rest h
      cases t with
      | nil => cases h
      | cons c t =>
          rw [stripPrefixQ] at h
          by_cases hc : c = p
          · rw [if_pos hc] at h
            rw [List.cons_append, ← ih t rest h, hc]
          · rw [if_neg hc] at h
            cases h

lemma pyReplaceF_fuel (n0 : Char) (ns r : List Char) :
    ∀ (f1 f2 : Nat) (s : List Char), s.length ≤ f1 → s.length ≤ f2 →
      pyReplaceF n0 ns r f1 s = pyReplaceF n0 ns r f2 s := by
  intro f1
  induction f1 with
  | zero =>
      intro f2 s h1 _
      rw [List.length_eq_zero.mp (Nat.le_zero.mp h1)]
      cases f2 <;> rfl
  | succ f1 ih =>
      intro f2 s h1 h2
      cases s with
      | nil => cases f2 <;> rfl
      | cons c t =>
          cases f2 with
          | zero => simp at h2
          | succ g =>
              simp only [List.length_cons, Nat.succ_le_succ_iff] at h1 h2
              show (if c = n0 then
                  match stripPrefixQ ns t with
                  | some rest => r ++ pyReplaceF n0 ns r f1 rest
                  | none => c :: pyReplaceF n0 ns r f1 t
                else c :: pyReplaceF n0 ns r f1 t) =
                (if c = n0 then
                  match stripPrefixQ ns t with
                  | some rest => r ++ pyReplaceF n0 ns r g rest
                  | none => c :: pyReplaceF n0 ns r g t
                else c :: pyReplaceF n0 ns r g t)
              by_cases hc : c = n0
              · rw [if_pos hc, if_pos hc]
                cases hsp : stripPrefixQ ns t with
                | some rest =>
                    have hlen : rest.length ≤ t.length := by
                      have := stripPrefixQ_decomp ns t rest hsp
                      subst this
                      simp
                    simp only []
                    rw [ih g rest (by omega) (by omega)]
                | none =>
                    simp only []
                    rw [ih g t h1 h2]
              · rw [if_neg hc, if_neg hc, ih g t h1 h2]

lemma pyReplace_cons_hit (n0 : Char) (ns r t rest : List Char)
    (h : stripPrefixQ ns t = some rest) :
    pyReplace n0 ns r (n0 :: t) = r ++ pyReplace n0 ns r rest := by
  have hlen : rest.length ≤ t.length := by
    have := stripPrefixQ_decomp ns t rest h
    subst this
    simp
  show pyReplaceF n0 ns r (t.length + 1) (n0 :: t) = _
  show (if n0 = n0 then
      match stripPrefixQ ns t with
      | some rest => r ++ pyReplaceF n0 ns r t.length rest
      | none => n0 :: pyReplaceF n0 ns r t.length t
    else n0 :: pyReplaceF n0 ns r t.length t) = _
  rw [if_pos rfl, h]
  simp only []
  rw [pyReplaceF_fuel n0 ns r t.length rest.length rest hlen (Nat.le_refl _)]
  rfl

lemma pyReplace_cons_miss (n0 : Char) (ns r : List Char) (c : Char)
    (t : List Char) (h : c ≠ n0 ∨ stripPrefixQ ns t = none) :
    pyReplace n0 ns r (c :: t) = c :: pyReplace n0 ns r t := by
  show pyReplaceF n0 ns r (t.length + 1) (c :: t) = _
  show (if c = n0 then
      match stripPrefixQ ns t with
      | some rest => r ++ pyReplaceF n0 ns r t.length rest
      | none => c :: pyReplaceF n0 ns r t.length t
    else c :: pyReplaceF n0 ns r t.length t) = _
  rcases h with h | h
  · rw [if_neg h]
    rfl
  · by_cases hc : c = n0
    · rw [if_pos hc, h]
      rfl
    · rw [if_neg hc]
      rfl

lemma pyReplace_pass (n0 : Char) (ns r : List Char) :
    ∀ (pre s : List Char), (∀ c ∈ pre, c ≠ n0) →
      pyReplace n0 ns r (pre ++ s) = pre ++ pyReplace n0 ns r s := by
  intro pre
  induction pre with
  | nil => intro s _; rfl
  | cons c pre ih =>
      intro s h
      rw [List.cons_append,
        pyReplace_cons_miss n0 ns r c (pre ++ s)
          (Or.inl (h c (List.mem_cons_self _ _))),
        ih s (fun x hx => h x (List.mem_cons_of_mem _ hx)),
        List.cons_append]

lemma pyReplace_single (c : Char) (r : List Char) :
    ∀ s : List Char,
      pyReplace c [] r s = s.flatMap (fun a => if a = c then r else [a]) := by
  intro s
  induction s with
  | nil => rfl
  | cons a t ih =>
      rw [List.flatMap_cons]
      by_cases ha : a = c
      · subst ha
        rw [pyReplace_cons_hit a [] r t t rfl, ih, if_pos rfl]
      · rw [pyReplace_cons_miss c [] r a t (Or.inl ha), ih, if_neg ha]
        rfl

/-- The eight characters the private entity table handles. -/
def escapeAlphabet : List Char :=
  ['\"', '\'', '<', '>', '&', '\n', '\r', '\t']

lemma flatMap_congr_mem (f g : Char → List Char) :
    ∀ s : List Char, (∀ a ∈ s, f a = g a) → s.flatMap f = s.flatMap g := by
  intro s
  induction s with
  | nil => intro _; rfl
  | cons a s ih =>
      intro h
      rw [List.flatMap_cons, List.flatMap_cons,
        h a (List.mem_cons_self _ _),
        ih (fun x hx => h x (List.mem_cons_of_mem _ hx))]

lemma stripPrefixQ_hash (ps : List Char) (enc : Char → List Char)
    (henc : ∀ a ∈ escapeAlphabet, ∃ c t, enc a = c :: t ∧ c ≠ '#') :
    ∀ s : List Char, (∀ a ∈ s, a ∈ escapeAlphabet) →
      stripPrefixQ ('#' :: ps) (s.flatMap enc) = none := by
  intro s hs
  cases s with
  | nil => rfl
  | cons a s =>
      obtain ⟨c, t, he, hc⟩ := henc a (hs a (List.mem_cons_self _ _))
      rw [List.flatMap_cons, he, List.cons_append, stripPrefixQ, if_neg hc]

/-- The per-character block map of the escape direction: each handled
character becomes its entity, any other character stays itself. -/
def xmlEnc0 (a : Char) : List Char :=
  if a = '\"' then "&quot;".data
  else if a = '\'' then "&apos;".data
  else if a = '<' then "&lt;".data
  else if a = '>' then "&gt;".data
  else if a = '&' then "&amp;".data
  else if a = '\n' then "&#10;".data
  else if a = '\r' then "&#13;".data
  else if a = '\t' then "&#9;".data
  else [a]

/-- The per-character block map after the first 1 unescape replaces
(entities already decoded back to their characters). -/
def xmlEnc1 (a : Char) : List Char :=
  if a = '\"' then ['\"']
  else if a = '\'' then "&apos;".data
  else if a = '<' then "&lt;".data
  else if a = '>' then "&gt;".data
  else if a = '&' then "&amp;".data
  else if a = '\n' then "&#10;".data
  else if a = '\r' then "&#13;".data
  else if a = '\t' then "&#9;".data
  else [a]

/-- The per-character block map after the first 2 unescape replaces
(entities already decoded back to their characters). -/
def xmlEnc2 (a : Char) : List Char :=
  if a = '\"' then ['\"']
  else if a = '\'' then ['\'']
  else if a = '<' then "&lt;".data
  else if a = '>' then "&gt;".data
  else if a = '&' then "&amp;".data
  else if a = '\n' then "&#10;".data
  else if a = '\r' then "&#13;".data
  else if a = '\t' then "&#9;".data
  else [a]

/-- The per-character block map after the first 3 unescape replaces
(entities already decoded back to their characters). -/
def xmlEnc3 (a : Char) : List Char :=
  if a = '\"' then ['\"']
  else if a = '\'' then ['\'']
  else if a = '<' then ['<']
  else if a = '>' then "&gt;".data
  else if a = '&' then "&amp;".data
  else if a = '\n' then "&#10;".data
  else if a = '\r' then "&#13;".data
  else if a = '\t' then "&#9;".data
  else [a]

/-- The per-character block map after the first 4 unescape replaces
(entities already decoded back to their characters). -/
def xmlEnc4 (a : Char) : List Char :=
  if a = '\"' then ['\"']
  else if a = '\'' then ['\'']
  else if a = '<' then ['<']
  else if a = '>' then ['>']
  else if a = '&' then "&amp;".data
  else if a = '\n' then "&#10;".data
  else if a = '\r' then "&#13;".data
  else if a = '\t' then "&#9;".data
  else [a]

/-- The per-character block map after the first 5 unescape replaces
(entities already decoded back to their characters). -/
def xmlEnc5 (a : Char) : List Char :=
  if a = '\"' then ['\"']
  else if a = '\'' then ['\'']
  else if a = '<' then ['<']
  else if a = '>' then ['>']
  else if a = '&' then ['&']
  else if a = '\n' then "&#10;".data
  else if a = '\r' then "&#13;".data
  else if a = '\t' then "&#9;".data
  else [a]

/-- The per-character block map after the first 6 unescape replaces
(entities already decoded back to their characters). -/
def xmlEnc6 (a : Char) : List Char :=
  if a = '\"' then ['\"']
  else if a = '\'' then ['\'']
  else if a = '<' then ['<']
  else if a = '>' then ['>']
  else if a = '&' then ['&']
  else if a = '\n' then ['\n']
  else if a = '\r' then "&#13;".data
  else if a = '\t' then "&#9;".data
  else [a]

/-- The per-character block map after the first 7 unescape replaces
(entities already decoded back to their characters). -/
def xmlEnc7 (a : Char) : List Char :=
  if a = '\"' then ['\"']
  else if a = '\'' then ['\'']
  else if a = '<' then ['<']
  else if a = '>' then ['>']
  else if a = '&' then ['&']
  else if a = '\n' then ['\n']
  else if a = '\r' then ['\r']
  else if a = '\t' then "&#9;".data
  else [a]

/-- The per-character block map after the first 8 unescape replaces
(entities already decoded back to their characters). -/
def xmlEnc8 (a : Char) : List Char :=
  if a = '\"' then ['\"']
  else if a = '\'' then ['\'']
  else if a = '<' then ['<']
  else if a = '>' then ['>']
  else if a = '&' then ['&']
  else if a = '\n' then ['\n']
  else if a = '\r' then ['\r']
  else if a = '\t' then ['\t']
  else [a]

lemma xmlEnc5_head : ∀ a ∈ escapeAlphabet,
    ∃ c t, xmlEnc5 a = c :: t ∧ c ≠ '#' := by
  intro a ha
  simp only [escapeAlphabet, List.mem_cons, List.not_mem_nil, or_false] at ha
  rcases ha with rfl | rfl | rfl | rfl | rfl | rfl | rfl | rfl <;>
    exact ⟨_, _, rfl, by decide⟩

lemma xmlEnc6_head : ∀ a ∈ escapeAlphabet,
    ∃ c t, xmlEnc6 a = c :: t ∧ c ≠ '#' := by
  intro a ha
  simp only [escapeAlphabet, List.mem_cons, List.not_mem_nil, or_false] at ha
  rcases ha with rfl | rfl | rfl | rfl | rfl | rfl | rfl | rfl <;>
    exact ⟨_, _, rfl, by decide⟩

lemma xmlEnc7_head : ∀ a ∈ escapeAlphabet,
    ∃ c t, xmlEnc7 a = c :: t ∧ c ≠ '#' := by
  intro a ha
  simp only [escapeAlphabet, List.mem_cons, List.not_mem_nil, or_false] at ha
  rcases ha with rfl | rfl | rfl | rfl | rfl | rfl | rfl | rfl <;>
    exact ⟨_, _, rfl, by decide⟩

lemma unescStage1 : ∀ s : List Char, (∀ a ∈ s, a ∈ escapeAlphabet) →
    pyReplace '&' "quot;".data "\"".data (s.flatMap xmlEnc0) =
      s.flatMap xmlEnc1 := by
  intro s
  induction s with
  | nil => intro _; rfl
  | cons a s ih =>
      intro h
      have ha := h a (List.mem_cons_self _ _)
      have hs : ∀ x ∈ s, x ∈ escapeAlphabet :=
        fun x hx => h x (List.mem_cons_of_mem _ hx)
      rw [List.flatMap_cons, List.flatMap_cons]
      simp only [escapeAlphabet, List.mem_cons, List.not_mem_nil,
        or_false] at ha
      rcases ha with rfl | rfl | rfl | rfl | rfl | rfl | rfl | rfl
      · rw [show xmlEnc0 '\"' ++ s.flatMap xmlEnc0 =
            '&' :: ("quot;".data ++ s.flatMap xmlEnc0) from rfl]
        rw [pyReplace_cons_hit '&' "quot;".data "\"".data _ _
          (stripPrefixQ_append "quot;".data _)]
        rw [ih hs]
        rfl
      · rw [show xmlEnc0 '\'' ++ s.flatMap xmlEnc0 =
            '&' :: ("apos;".data ++ s.flatMap xmlEnc0) from rfl]
        rw [pyReplace_cons_miss '&' "quot;".data "\"".data '&'
          ("apos;".data ++ s.flatMap xmlEnc0) (Or.inr rfl)]
        rw [pyReplace_pass '&' "quot;".data "\"".data "apos;".data _
          (by decide)]
        rw [ih hs]
        rfl
      · rw [show xmlEnc0 '<' ++ s.flatMap xmlEnc0 =
            '&' :: ("lt;".data ++ s.flatMap xmlEnc0) from rfl]
        rw [pyReplace_cons_miss '&' "quot;".data "\"".data '&'
          ("lt;".data ++ s.flatMap xmlEnc0) (Or.inr rfl)]
        rw [pyReplace_pass '&' "quot;".data "\"".data "lt;".data _
          (by decide)]
        rw [ih hs]
        rfl
      · rw [show xmlEnc0 '>' ++ s.flatMap xmlEnc0 =
            '&' :: ("gt;".data ++ s.flatMap xmlEnc0) from rfl]
        rw [pyReplace_cons_miss '&' "quot;".data "\"".data '&'
          ("gt;".data ++ s.flatMap xmlEnc0) (Or.inr rfl)]
        rw [pyReplace_pass '&' "quot;".data "\"".data "gt;".data _
          (by decide)]
        rw [ih hs]
        rfl
      · rw [show xmlEnc0 '&' ++ s.flatMap xmlEnc0 =
            '&' :: ("amp;".data ++ s.flatMap xmlEnc0) from rfl]
        rw [pyReplace_cons_miss '&' "quot;".data "\"".data '&'
          ("amp;".data ++ s.flatMap xmlEnc0) (Or.inr rfl)]
        rw [pyReplace_pass '&' "quot;".data "\"".data "amp;".data _
          (by decide)]
        rw [ih hs]
        rfl
      · rw [show xmlEnc0 '\n' ++ s.flatMap xmlEnc0 =
            '&' :: ("#10;".data ++ s.flatMap xmlEnc0) from rfl]
        rw [pyReplace_cons_miss '&' "quot;".data "\"".data '&'
          ("#10;".data ++ s.flatMap xmlEnc0) (Or.inr rfl)]
        rw [pyReplace_pass '&' "quot;".data "\"".data "#10;".data _
          (by decide)]
        rw [ih hs]
        rfl
      · rw [show xmlEnc0 '\r' ++ s.flatMap xmlEnc0 =
            '&' :: ("#13;".data ++ s.flatMap xmlEnc0) from rfl]
        rw [pyReplace_cons_miss '&' "quot;".data "\"".data '&'
          ("#13;".data ++ s.flatMap xmlEnc0) (Or.inr rfl)]
        rw [pyReplace_pass '&' "quot;".data "\"".data "#13;".data _
          (by decide)]
        rw [ih hs]
        rfl
      · rw [show xmlEnc0 '\t' ++ s.flatMap xmlEnc0 =
            '&' :: ("#9;".data ++ s.flatMap xmlEnc0) from rfl]
        rw [pyReplace_cons_miss '&' "quot;".data "\"".data '&'
          ("#9;".data ++ s.flatMap xmlEnc0) (Or.inr rfl)]
        rw [pyReplace_pass '&' "quot;".data "\"".data "#9;".data _
          (by decide)]
        rw [ih hs]
        rfl

lemma unescStage2 : ∀ s : List Char, (∀ a ∈ s, a ∈ escapeAlphabet) →
    pyReplace '&' "apos;".data "'".data (s.flatMap xmlEnc1) =
      s.flatMap xmlEnc2 := by
  intro s
  induction s with
  | nil => intro _; rfl
  | cons a s ih =>
      intro h
      have ha := h a (List.mem_cons_self _ _)
      have hs : ∀ x ∈ s, x ∈ escapeAlphabet :=
        fun x hx => h x (List.mem_cons_of_mem _ hx)
      rw [List.flatMap_cons, List.flatMap_cons]
      simp only [escapeAlphabet, List.mem_cons, List.not_mem_nil,
        or_false] at ha
      rcases ha with rfl | rfl | rfl | rfl | rfl | rfl | rfl | rfl
      · rw [show xmlEnc1 '\"' ++ s.flatMap xmlEnc1 =
            '\"' :: s.flatMap xmlEnc1 from rfl]
        rw [pyReplace_cons_miss '&' "apos;".data "'".data '\"' _
          (Or.inl (by decide))]
        rw [ih hs]
        rfl
      · rw [show xmlEnc1 '\'' ++ s.flatMap xmlEnc1 =
            '&' :: ("apos;".data ++ s.flatMap xmlEnc1) from rfl]
        rw [pyReplace_cons_hit '&' "apos;".data "'".data _ _
          (stripPrefixQ_append "apos;".data _)]
        rw [ih hs]
        rfl
      · rw [show xmlEnc1 '<' ++ s.flatMap xmlEnc1 =
            '&' :: ("lt;".data ++ s.flatMap xmlEnc1) from rfl]
        rw [pyReplace_cons_miss '&' "apos;".data "'".data '&'
          ("lt;".data ++ s.flatMap xmlEnc1) (Or.inr rfl)]
        rw [pyReplace_pass '&' "apos;".data "'".data "lt;".data _
          (by decide)]
        rw [ih hs]
        rfl
      · rw [show xmlEnc1 '>' ++ s.flatMap xmlEnc1 =
            '&' :: ("gt;".data ++ s.flatMap xmlEnc1) from rfl]
        rw [pyReplace_cons_miss '&' "apos;".data "'".data '&'
          ("gt;".data ++ s.flatMap xmlEnc1) (Or.inr rfl)]
        rw [pyReplace_pass '&' "apos;".data "'".data "gt;".data _
          (by decide)]
        rw [ih hs]
        rfl
      · rw [show xmlEnc1 '&' ++ s.flatMap xmlEnc1 =
            '&' :: ("amp;".data ++ s.flatMap xmlEnc1) from rfl]
        rw [pyReplace_cons_miss '&' "apos;".data "'".data '&'
          ("amp;".data ++ s.flatMap xmlEnc1) (Or.inr rfl)]
        rw [pyReplace_pass '&' "apos;".data "'".data "amp;".data _
          (by decide)]
        rw [ih hs]
        rfl
      · rw [show xmlEnc1 '\n' ++ s.flatMap xmlEnc1 =
            '&' :: ("#10;".data ++ s.flatMap xmlEnc1) from rfl]
        rw [pyReplace_cons_miss '&' "apos;".data "'".data '&'
          ("#10;".data ++ s.flatMap xmlEnc1) (Or.inr rfl)]
        rw [pyReplace_pass '&' "apos;".data "'".data "#10;".data _
          (by decide)]
        rw [ih hs]
        rfl
      · rw [show xmlEnc1 '\r' ++ s.flatMap xmlEnc1 =
            '&' :: ("#13;".data ++ s.flatMap xmlEnc1) from rfl]
        rw [pyReplace_cons_miss '&' "apos;".data "'".data '&'
          ("#13;".data ++ s.flatMap xmlEnc1) (Or.inr rfl)]
        rw [pyReplace_pass '&' "apos;".data "'".data "#13;".data _
          (by decide)]
        rw [ih hs]
        rfl
      · rw [show xmlEnc1 '\t' ++ s.flatMap xmlEnc1 =
            '&' :: ("#9;".data ++ s.flatMap xmlEnc1) from rfl]
        rw [pyReplace_cons_miss '&' "apos;".data "'".data '&'
          ("#9;".data ++ s.flatMap xmlEnc1) (Or.inr rfl)]
        rw [pyReplace_pass '&' "apos;".data "'".data "#9;".data _
          (by decide)]
        rw [ih hs]
        rfl

lemma unescStage3 : ∀ s : List Char, (∀ a ∈ s, a ∈ escapeAlphabet) →
    pyReplace '&' "lt;".data "<".data (s.flatMap xmlEnc2) =
      s.flatMap xmlEnc3 := by
  intro s
  induction s with
  | nil => intro _; rfl
  | cons a s ih =>
      intro h
      have ha := h a (List.mem_cons_self _ _)
      have hs : ∀ x ∈ s, x ∈ escapeAlphabet :=
        fun x hx => h x (List.mem_cons_of_mem _ hx)
      rw [List.flatMap_cons, List.flatMap_cons]
      simp only [escapeAlphabet, List.mem_cons, List.not_mem_nil,
        or_false] at ha
      rcases ha with rfl | rfl | rfl | rfl | rfl | rfl | rfl | rfl
      · rw [show xmlEnc2 '\"' ++ s.flatMap xmlEnc2 =
            '\"' :: s.flatMap xmlEnc2 from rfl]
        rw [pyReplace_cons_miss '&' "lt;".data "<".data '\"' _
          (Or.inl (by decide))]
        rw [ih hs]
        rfl
      · rw [show xmlEnc2 '\'' ++ s.flatMap xmlEnc2 =
            '\'' :: s.flatMap xmlEnc2 from rfl]
        rw [pyReplace_cons_miss '&' "lt;".data "<".data '\'' _
          (Or.inl (by decide))]
        rw [ih hs]
        rfl
      · rw [show xmlEnc2 '<' ++ s.flatMap xmlEnc2 =
            '&' :: ("lt;".data ++ s.flatMap xmlEnc2) from rfl]
        rw [pyReplace_cons_hit '&' "lt;".data "<".data _ _
          (stripPrefixQ_append "lt;".data _)]
        rw [ih hs]
        rfl
      · rw [show xmlEnc2 '>' ++ s.flatMap xmlEnc2 =
            '&' :: ("gt;".data ++ s.flatMap xmlEnc2) from rfl]
        rw [pyReplace_cons_miss '&' "lt;".data "<".data '&'
          ("gt;".data ++ s.flatMap xmlEnc2) (Or.inr rfl)]
        rw [pyReplace_pass '&' "lt;".data "<".data "gt;".data _
          (by decide)]
        rw [ih hs]
        rfl
      · rw [show xmlEnc2 '&' ++ s.flatMap xmlEnc2 =
            '&' :: ("amp;".data ++ s.flatMap xmlEnc2) from rfl]
        rw [pyReplace_cons_miss '&' "lt;".data "<".data '&'
          ("amp;".data ++ s.flatMap xmlEnc2) (Or.inr rfl)]
        rw [pyReplace_pass '&' "lt;".data "<".data "amp;".data _
          (by decide)]
        rw [ih hs]
        rfl
      · rw [show xmlEnc2 '\n' ++ s.flatMap xmlEnc2 =
            '&' :: ("#10;".data ++ s.flatMap xmlEnc2) from rfl]
        rw [pyReplace_cons_miss '&' "lt;".data "<".data '&'
          ("#10;".data ++ s.flatMap xmlEnc2) (Or.inr rfl)]
        rw [pyReplace_pass '&' "lt;".data "<".data "#10;".data _
          (by decide)]
        rw [ih hs]
        rfl
      · rw [show xmlEnc2 '\r' ++ s.flatMap xmlEnc2 =
            '&' :: ("#13;".data ++ s.flatMap xmlEnc2) from rfl]
        rw [pyReplace_cons_miss '&' "lt;".data "<".data '&'
          ("#13;".data ++ s.flatMap xmlEnc2) (Or.inr rfl)]
        rw [pyReplace_pass '&' "lt;".data "<".data "#13;".data _
          (by decide)]
        rw [ih hs]
        rfl
      · rw [show xmlEnc2 '\t' ++ s.flatMap xmlEnc2 =
            '&' :: ("#9;".data ++ s.flatMap xmlEnc2) from rfl]
        rw [pyReplace_cons_miss '&' "lt;".data "<".data '&'
          ("#9;".data ++ s.flatMap xmlEnc2) (Or.inr rfl)]
        rw [pyReplace_pass '&' "lt;".data "<".data "#9;".data _
          (by decide)]
        rw [ih hs]
        rfl

lemma unescStage4 : ∀ s : List Char, (∀ a ∈ s, a ∈ escapeAlphabet) →
    pyReplace '&' "gt;".data ">".data (s.flatMap xmlEnc3) =
      s.flatMap xmlEnc4 := by
  intro s
  induction s with
  | nil => intro _; rfl
  | cons a s ih =>
      intro h
      have ha := h a (List.mem_cons_self _ _)
      have hs : ∀ x ∈ s, x ∈ escapeAlphabet :=
        fun x hx => h x (List.mem_cons_of_mem _ hx)
      rw [List.flatMap_cons, List.flatMap_cons]
      simp only [escapeAlphabet, List.mem_cons, List.not_mem_nil,
        or_false] at ha
      rcases ha with rfl | rfl | rfl | rfl | rfl | rfl | rfl | rfl
      · rw [show xmlEnc3 '\"' ++ s.flatMap xmlEnc3 =
            '\"' :: s.flatMap xmlEnc3 from rfl]
        rw [pyReplace_cons_miss '&' "gt;".data ">".data '\"' _
          (Or.inl (by decide))]
        rw [ih hs]
        rfl
      · rw [show xmlEnc3 '\'' ++ s.flatMap xmlEnc3 =
            '\'' :: s.flatMap xmlEnc3 from rfl]
        rw [pyReplace_cons_miss '&' "gt;".data ">".data '\'' _
          (Or.inl (by decide))]
        rw [ih hs]
        rfl
      · rw [show xmlEnc3 '<' ++ s.flatMap xmlEnc3 =
            '<' :: s.flatMap xmlEnc3 from rfl]
        rw [pyReplace_cons_miss '&' "gt;".data ">".data '<' _
          (Or.inl (by decide))]
        rw [ih hs]
        rfl
      · rw [show xmlEnc3 '>' ++ s.flatMap xmlEnc3 =
            '&' :: ("gt;".data ++ s.flatMap xmlEnc3) from rfl]
        rw [pyReplace_cons_hit '&' "gt;".data ">".data _ _
          (stripPrefixQ_append "gt;".data _)]
        rw [ih hs]
        rfl
      · rw [show xmlEnc3 '&' ++ s.flatMap xmlEnc3 =
            '&' :: ("amp;".data ++ s.flatMap xmlEnc3) from rfl]
        rw [pyReplace_cons_miss '&' "gt;".data ">".data '&'
          ("amp;".data ++ s.flatMap xmlEnc3) (Or.inr rfl)]
        rw [pyReplace_pass '&' "gt;".data ">".data "amp;".data _
          (by decide)]
        rw [ih hs]
        rfl
      · rw [show xmlEnc3 '\n' ++ s.flatMap xmlEnc3 =
            '&' :: ("#10;".data ++ s.flatMap xmlEnc3) from rfl]
        rw [pyReplace_cons_miss '&' "gt;".data ">".data '&'
          ("#10;".data ++ s.flatMap xmlEnc3) (Or.inr rfl)]
        rw [pyReplace_pass '&' "gt;".data ">".data "#10;".data _
          (by decide)]
        rw [ih hs]
        rfl
      · rw [show xmlEnc3 '\r' ++ s.flatMap xmlEnc3 =
            '&' :: ("#13;".data ++ s.flatMap xmlEnc3) from rfl]
        rw [pyReplace_cons_miss '&' "gt;".data ">".data '&'
          ("#13;".data ++ s.flatMap xmlEnc3) (Or.inr rfl)]
        rw [pyReplace_pass '&' "gt;".data ">".data "#13;".data _
          (by decide)]
        rw [ih hs]
        rfl
      · rw [show xmlEnc3 '\t' ++ s.flatMap xmlEnc3 =
            '&' :: ("#9;".data ++ s.flatMap xmlEnc3) from rfl]
        rw [pyReplace_cons_miss '&' "gt;".data ">".data '&'
          ("#9;".data ++ s.flatMap xmlEnc3) (Or.inr rfl)]
        rw [pyReplace_pass '&' "gt;".data ">".data "#9;".data _
          (by decide)]
        rw [ih hs]
        rfl

lemma unescStage5 : ∀ s : List Char, (∀ a ∈ s, a ∈ escapeAlphabet) →
    pyReplace '&' "amp;".data "&".data (s.flatMap xmlEnc4) =
      s.flatMap xmlEnc5 := by
  intro s
  induction s with
  | nil => intro _; rfl
  | cons a s ih =>
      intro h
      have ha := h a (List.mem_cons_self _ _)
      have hs : ∀ x ∈ s, x ∈ escapeAlphabet :=
        fun x hx => h x (List.mem_cons_of_mem _ hx)
      rw [List.flatMap_cons, List.flatMap_cons]
      simp only [escapeAlphabet, List.mem_cons, List.not_mem_nil,
        or_false] at ha
      rcases ha with rfl | rfl | rfl | rfl | rfl | rfl | rfl | rfl
      · rw [show xmlEnc4 '\"' ++ s.flatMap xmlEnc4 =
            '\"' :: s.flatMap xmlEnc4 from rfl]
        rw [pyReplace_cons_miss '&' "amp;".data "&".data '\"' _
          (Or.inl (by decide))]
        rw [ih hs]
        rfl
      · rw [show xmlEnc4 '\'' ++ s.flatMap xmlEnc4 =
            '\'' :: s.flatMap xmlEnc4 from rfl]
        rw [pyReplace_cons_miss '&' "amp;".data "&".data '\'' _
          (Or.inl (by decide))]
        rw [ih hs]
        rfl
      · rw [show xmlEnc4 '<' ++ s.flatMap xmlEnc4 =
            '<' :: s.flatMap xmlEnc4 from rfl]
        rw [pyReplace_cons_miss '&' "amp;".data "&".data '<' _
          (Or.inl (by decide))]
        rw [ih hs]
        rfl
      · rw [show xmlEnc4 '>' ++ s.flatMap xmlEnc4 =
            '>' :: s.flatMap xmlEnc4 from rfl]
        rw [pyReplace_cons_miss '&' "amp;".data "&".data '>' _
          (Or.inl (by decide))]
        rw [ih hs]
        rfl
      · rw [show xmlEnc4 '&' ++ s.flatMap xmlEnc4 =
            '&' :: ("amp;".data ++ s.flatMap xmlEnc4) from rfl]
        rw [pyReplace_cons_hit '&' "amp;".data "&".data _ _
          (stripPrefixQ_append "amp;".data _)]
        rw [ih hs]
        rfl
      · rw [show xmlEnc4 '\n' ++ s.flatMap xmlEnc4 =
            '&' :: ("#10;".data ++ s.flatMap xmlEnc4) from rfl]
        rw [pyReplace_cons_miss '&' "amp;".data "&".data '&'
          ("#10;".data ++ s.flatMap xmlEnc4) (Or.inr rfl)]
        rw [pyReplace_pass '&' "amp;".data "&".data "#10;".data _
          (by decide)]
        rw [ih hs]
        rfl
      · rw [show xmlEnc4 '\r' ++ s.flatMap xmlEnc4 =
            '&' :: ("#13;".data ++ s.flatMap xmlEnc4) from rfl]
        rw [pyReplace_cons_miss '&' "amp;".data "&".data '&'
          ("#13;".data ++ s.flatMap xmlEnc4) (Or.inr rfl)]
        rw [pyReplace_pass '&' "amp;".data "&".data "#13;".data _
          (by decide)]
        rw [ih hs]
        rfl
      · rw [show xmlEnc4 '\t' ++ s.flatMap xmlEnc4 =
            '&' :: ("#9;".data ++ s.flatMap xmlEnc4) from rfl]
        rw [pyReplace_cons_miss '&' "amp;".data "&".data '&'
          ("#9;".data ++ s.flatMap xmlEnc4) (Or.inr rfl)]
        rw [pyReplace_pass '&' "amp;".data "&".data "#9;".data _
          (by decide)]
        rw [ih hs]
        rfl

lemma unescStage6 : ∀ s : List Char, (∀ a ∈ s, a ∈ escapeAlphabet) →
    pyReplace '&' "#10;".data "\n".data (s.flatMap xmlEnc5) =
      s.flatMap xmlEnc6 := by
  intro s
  induction s with
  | nil => intro _; rfl
  | cons a s ih =>
      intro h
      have ha := h a (List.mem_cons_self _ _)
      have hs : ∀ x ∈ s, x ∈ escapeAlphabet :=
        fun x hx => h x (List.mem_cons_of_mem _ hx)
      rw [List.flatMap_cons, List.flatMap_cons]
      simp only [escapeAlphabet, List.mem_cons, List.not_mem_nil,
        or_false] at ha
      rcases ha with rfl | rfl | rfl | rfl | rfl | rfl | rfl | rfl
      · rw [show xmlEnc5 '\"' ++ s.flatMap xmlEnc5 =
            '\"' :: s.flatMap xmlEnc5 from rfl]
        rw [pyReplace_cons_miss '&' "#10;".data "\n".data '\"' _
          (Or.inl (by decide))]
        rw [ih hs]
        rfl
      · rw [show xmlEnc5 '\'' ++ s.flatMap xmlEnc5 =
            '\'' :: s.flatMap xmlEnc5 from rfl]
        rw [pyReplace_cons_miss '&' "#10;".data "\n".data '\'' _
          (Or.inl (by decide))]
        rw [ih hs]
        rfl
      · rw [show xmlEnc5 '<' ++ s.flatMap xmlEnc5 =
            '<' :: s.flatMap xmlEnc5 from rfl]
        rw [pyReplace_cons_miss '&' "#10;".data "\n".data '<' _
          (Or.inl (by decide))]
        rw [ih hs]
        rfl
      · rw [show xmlEnc5 '>' ++ s.flatMap xmlEnc5 =
            '>' :: s.flatMap xmlEnc5 from rfl]
        rw [pyReplace_cons_miss '&' "#10;".data "\n".data '>' _
          (Or.inl (by decide))]
        rw [ih hs]
        rfl
      · rw [show xmlEnc5 '&' ++ s.flatMap xmlEnc5 =
            '&' :: s.flatMap xmlEnc5 from rfl]
        rw [pyReplace_cons_miss '&' "#10;".data "\n".data '&'
          (s.flatMap xmlEnc5)
          (Or.inr (stripPrefixQ_hash "10;".data xmlEnc5
            xmlEnc5_head s hs))]
        rw [ih hs]
        rfl
      · rw [show xmlEnc5 '\n' ++ s.flatMap xmlEnc5 =
            '&' :: ("#10;".data ++ s.flatMap xmlEnc5) from rfl]
        rw [pyReplace_cons_hit '&' "#10;".data "\n".data _ _
          (stripPrefixQ_append "#10;".data _)]
        rw [ih hs]
        rfl
      · rw [show xmlEnc5 '\r' ++ s.flatMap xmlEnc5 =
            '&' :: ("#13;".data ++ s.flatMap xmlEnc5) from rfl]
        rw [pyReplace_cons_miss '&' "#10;".data "\n".data '&'
          ("#13;".data ++ s.flatMap xmlEnc5) (Or.inr rfl)]
        rw [pyReplace_pass '&' "#10;".data "\n".data "#13;".data _
          (by decide)]
        rw [ih hs]
        rfl
      · rw [show xmlEnc5 '\t' ++ s.flatMap xmlEnc5 =
            '&' :: ("#9;".data ++ s.flatMap xmlEnc5) from rfl]
        rw [pyReplace_cons_miss '&' "#10;".data "\n".data '&'
          ("#9;".data ++ s.flatMap xmlEnc5) (Or.inr rfl)]
        rw [pyReplace_pass '&' "#10;".data "\n".data "#9;".data _
          (by decide)]
        rw [ih hs]
        rfl

lemma unescStage7 : ∀ s : List Char, (∀ a ∈ s, a ∈ escapeAlphabet) →
    pyReplace '&' "#13;".data "\r".data (s.flatMap xmlEnc6) =
      s.flatMap xmlEnc7 := by
  intro s
  induction s with
  | nil => intro _; rfl
  | cons a s ih =>
      intro h
      have ha := h a (List.mem_cons_self _ _)
      have hs : ∀ x ∈ s, x ∈ escapeAlphabet :=
        fun x hx => h x (List.mem_cons_of_mem _ hx)
      rw [List.flatMap_cons, List.flatMap_cons]
      simp only [escapeAlphabet, List.mem_cons, List.not_mem_nil,
        or_false] at ha
      rcases ha with rfl | rfl | rfl | rfl | rfl | rfl | rfl | rfl
      · rw [show xmlEnc6 '\"' ++ s.flatMap xmlEnc6 =
            '\"' :: s.flatMap xmlEnc6 from rfl]
        rw [pyReplace_cons_miss '&' "#13;".data "\r".data '\"' _
          (Or.inl (by decide))]
        rw [ih hs]
        rfl
      · rw [show xmlEnc6 '\'' ++ s.flatMap xmlEnc6 =
            '\'' :: s.flatMap xmlEnc6 from rfl]
        rw [pyReplace_cons_miss '&' "#13;".data "\r".data '\'' _
          (Or.inl (by decide))]
        rw [ih hs]
        rfl
      · rw [show xmlEnc6 '<' ++ s.flatMap xmlEnc6 =
            '<' :: s.flatMap xmlEnc6 from rfl]
        rw [pyReplace_cons_miss '&' "#13;".data "\r".data '<' _
          (Or.inl (by decide))]
        rw [ih hs]
        rfl
      · rw [show xmlEnc6 '>' ++ s.flatMap xmlEnc6 =
            '>' :: s.flatMap xmlEnc6 from rfl]
        rw [pyReplace_cons_miss '&' "#13;".data "\r".data '>' _
          (Or.inl (by decide))]
        rw [ih hs]
        rfl
      · rw [show xmlEnc6 '&' ++ s.flatMap xmlEnc6 =
            '&' :: s.flatMap xmlEnc6 from rfl]
        rw [pyReplace_cons_miss '&' "#13;".data "\r".data '&'
          (s.flatMap xmlEnc6)
          (Or.inr (stripPrefixQ_hash "13;".data xmlEnc6
            xmlEnc6_head s hs))]
        rw [ih hs]
        rfl
      · rw [show xmlEnc6 '\n' ++ s.flatMap xmlEnc6 =
            '\n' :: s.flatMap xmlEnc6 from rfl]
        rw [pyReplace_cons_miss '&' "#13;".data "\r".data '\n' _
          (Or.inl (by decide))]
        rw [ih hs]
        rfl
      · rw [show xmlEnc6 '\r' ++ s.flatMap xmlEnc6 =
            '&' :: ("#13;".data ++ s.flatMap xmlEnc6) from rfl]
        rw [pyReplace_cons_hit '&' "#13;".data "\r".data _ _
          (stripPrefixQ_append "#13;".data _)]
        rw [ih hs]
        rfl
      · rw [show xmlEnc6 '\t' ++ s.flatMap xmlEnc6 =
            '&' :: ("#9;".data ++ s.flatMap xmlEnc6) from rfl]
        rw [pyReplace_cons_miss '&' "#13;".data "\r".data '&'
          ("#9;".data ++ s.flatMap xmlEnc6) (Or.inr rfl)]
        rw [pyReplace_pass '&' "#13;".data "\r".data "#9;".data _
          (by decide)]
        rw [ih hs]
        rfl

lemma unescStage8 : ∀ s : List Char, (∀ a ∈ s, a ∈ escapeAlphabet) →
    pyReplace '&' "#9;".data "\t".data (s.flatMap xmlEnc7) =
      s.flatMap xmlEnc8 := by
  intro s
  induction s with
  | nil => intro _; rfl
  | cons a s ih =>
      intro h
      have ha := h a (List.mem_cons_self _ _)
      have hs : ∀ x ∈ s, x ∈ escapeAlphabet :=
        fun x hx => h x (List.mem_cons_of_mem _ hx)
      rw [List.flatMap_cons, List.flatMap_cons]
      simp only [escapeAlphabet, List.mem_cons, List.not_mem_nil,
        or_false] at ha
      rcases ha with rfl | rfl | rfl | rfl | rfl | rfl | rfl | rfl
      · rw [show xmlEnc7 '\"' ++ s.flatMap xmlEnc7 =
            '\"' :: s.flatMap xmlEnc7 from rfl]
        rw [pyReplace_cons_miss '&' "#9;".data "\t".data '\"' _
          (Or.inl (by decide))]
        rw [ih hs]
        rfl
      · rw [show xmlEnc7 '\'' ++ s.flatMap xmlEnc7 =
            '\'' :: s.flatMap xmlEnc7 from rfl]
        rw [pyReplace_cons_miss '&' "#9;".data "\t".data '\'' _
          (Or.inl (by decide))]
        rw [ih hs]
        rfl
      · rw [show xmlEnc7 '<' ++ s.flatMap xmlEnc7 =
            '<' :: s.flatMap xmlEnc7 from rfl]
        rw [pyReplace_cons_miss '&' "#9;".data "\t".data '<' _
          (Or.inl (by decide))]
        rw [ih hs]
        rfl
      · rw [show xmlEnc7 '>' ++ s.flatMap xmlEnc7 =
            '>' :: s.flatMap xmlEnc7 from rfl]
        rw [pyReplace_cons_miss '&' "#9;".data "\t".data '>' _
          (Or.inl (by decide))]
        rw [ih hs]
        rfl
      · rw [show xmlEnc7 '&' ++ s.flatMap xmlEnc7 =
            '&' :: s.flatMap xmlEnc7 from rfl]
        rw [pyReplace_cons_miss '&' "#9;".data "\t".data '&'
          (s.flatMap xmlEnc7)
          (Or.inr (stripPrefixQ_hash "9;".data xmlEnc7
            xmlEnc7_head s hs))]
        rw [ih hs]
        rfl
      · rw [show xmlEnc7 '\n' ++ s.flatMap xmlEnc7 =
            '\n' :: s.flatMap xmlEnc7 from rfl]
        rw [pyReplace_cons_miss '&' "#9;".data "\t".data '\n' _
          (Or.inl (by decide))]
        rw [ih hs]
        rfl
      · rw [show xmlEnc7 '\r' ++ s.flatMap xmlEnc7 =
            '\r' :: s.flatMap xmlEnc7 from rfl]
        rw [pyReplace_cons_miss '&' "#9;".data "\t".data '\r' _
          (Or.inl (by decide))]
        rw [ih hs]
        rfl
      · rw [show xmlEnc7 '\t' ++ s.flatMap xmlEnc7 =
            '&' :: ("#9;".data ++ s.flatMap xmlEnc7) from rfl]
        rw [pyReplace_cons_hit '&' "#9;".data "\t".data _ _
          (stripPrefixQ_append "#9;".data _)]
        rw [ih hs]
        rfl

lemma escape_flatMap (s : List Char) (h : ∀ a ∈ s, a ∈ escapeAlphabet) :
    text_escape_XML s = s.flatMap xmlEnc0 := by
  unfold text_escape_XML
  simp only [pyReplace_single]
  simp only [List.flatMap_assoc]
  apply flatMap_congr_mem
  intro a ha
  have h8 := h a ha
  simp only [escapeAlphabet, List.mem_cons, List.not_mem_nil, or_false] at h8
  rcases h8 with rfl | rfl | rfl | rfl | rfl | rfl | rfl | rfl <;> decide

/-- **C3.**  The claim as stated — round-tripping holds for strings that
also contain arbitrary other text — is false: for `s = "&#10;"` the escape
maps `&` to `&amp;` giving `&amp;#10;`, and unescaping replaces `&amp;`
first (recreating `&`) and the numeric entities only afterwards, so the
recreated `&#10;` collapses to a newline. -/
theorem escape_unescape_counterexample :
    text_unescape_XML (text_escape_XML "&#10;".data) = "\n".data ∧
    text_unescape_XML (text_escape_XML "&#10;".data) ≠ "&#10;".data := by
  constructor
  · decide
  · decide

/-- **C3** (amended).  For every string built only from the eight handled
characters — the five escaped ones `"` `'` `<` `>` `&` and the control
characters newline, carriage return, tab — unescaping the escape yields
the original string. -/
theorem text_unescape_escape_roundtrip (s : List Char)
    (h : ∀ a ∈ s, a ∈ escapeAlphabet) :
    text_unescape_XML (text_escape_XML s) = s := by
  rw [escape_flatMap s h]
  unfold text_unescape_XML
  rw [unescStage1 s h, unescStage2 s h, unescStage3 s h, unescStage4 s h,
    unescStage5 s h, unescStage6 s h, unescStage7 s h, unescStage8 s h]
  have hid : s.flatMap xmlEnc8 = s.flatMap (fun a => [a]) := by
    apply flatMap_congr_mem
    intro a ha
    have h8 := h a ha
    simp only [escapeAlphabet, List.mem_cons, List.not_mem_nil,
      or_false] at h8
    rcases h8 with rfl | rfl | rfl | rfl | rfl | rfl | rfl | rfl <;> rfl
  rw [hid, List.flatMap_singleton']

/-- Witness for `text_unescape_escape_roundtrip` on a string using every
handled character. -/
theorem text_unescape_escape_roundtrip_witness :
    text_unescape_XML (text_escape_XML
      ['<', '&', '\n', '"', '\t', '>', '\r', '\'', '&']) =
      ['<', '&', '\n', '"', '\t', '>', '\r', '\'', '&'] :=
  text_unescape_escape_roundtrip _ (by decide)

/-- Witness for `tempest_trailing_section_lost`: in
`[A] / (blank) / [B] / Publisher=X` the section `B` is still open at end of
input, so only section `A` is returned. -/
theorem tempest_trailing_section_lost_witness :
    audit_load_Tempest_INI ["[A]", "", "[B]", "Publisher=X"] =
      .ok [("A", setItem audit_new_rom_GameDB "name" "A")] ∧
    audit_load_Tempest_INI ["[A]", ""] =
      .ok [("A", setItem audit_new_rom_GameDB "name" "A")] := by
  apply tempest_trailing_section_lost ["[A]", ""]
    [("A", setItem audit_new_rom_GameDB "name" "A")] "[B]" ['B'] ["Publisher=X"]
  · rfl
  · rfl
  · intro l hl
    simp only [List.mem_cons, List.not_mem_nil, or_false] at hl
    subst hl
    exact ⟨"Publisher", "X", [], rfl, by decide⟩

end AEL
